import Mathlib

/-!
A verification development for a small text-adventure engine.

The engine interprets free-text commands against a static world graph
(locations, objects, actors, pathways), mutating a per-session world state,
and contains a restricted binary-image (PNG subset) decoder plus an
ASCII-art rasterizer.

The definitions below are a shallow embedding of the Python sources
(`engine/models.py`, `engine/engine.py`):
 - Python dicts become insertion-ordered association lists (`Dict`);
 - code that can raise (dict indexing `d[k]`, byte indexing, sequence
   unpacking) returns `Except Unit _`, any raised exception being `.error ()`;
 - IEEE double arithmetic in the rasterizer is modelled by exact rational
   arithmetic over the same decimal literals;
 - external library calls (`zlib.decompress`) are abstracted as function
   parameters; `str`/`bytes` UTF-8 decoding is modelled by an explicit
   RFC 3629 decoder.
-/

namespace TAdv

/-- Insertion-ordered string-keyed map, modelling a Python `dict`. -/
abbrev Dict (V : Type) : Type := List (String × V)

/-- `d.get(key)` / `key in d`: first binding of `key`, if any. -/
def dlookup {V : Type} : Dict V → String → Option V
  | [], _ => none
  | (k, v) :: rest, key => if key = k then some v else dlookup rest key

/-- `d[key] = v`: replace in place if present (keeping position), else append. -/
def dinsert {V : Type} : Dict V → String → V → Dict V
  | [], key, v => [(key, v)]
  | (k, w) :: rest, key, v =>
      if key = k then (k, v) :: rest else (k, w) :: dinsert rest key v

/-- Mutate the value stored at `key` in place; no-op when absent. -/
def dmodify {V : Type} : Dict V → String → (V → V) → Dict V
  | [], _, _ => []
  | (k, v) :: rest, key, f =>
      if key = k then (k, f v) :: rest else (k, v) :: dmodify rest key f

theorem dlookup_dinsert {V : Type} (d : Dict V) (key : String) (v : V) (k : String) :
    dlookup (dinsert d key v) k = if k = key then some v else dlookup d k := by
  induction d with
  | nil =>
    by_cases h : k = key <;> simp [dinsert, dlookup, h]
  | cons hd tl ih =>
    obtain ⟨k0, v0⟩ := hd
    by_cases h0 : key = k0
    · subst h0
      by_cases h : k = key <;> simp [dinsert, dlookup, h]
    · by_cases h : k = k0
      · subst h
        have hne : k ≠ key := fun h' => h0 h'.symm
        simp [dinsert, h0, dlookup, hne]
      · simp [dinsert, h0, dlookup, h, ih]

theorem dlookup_dmodify {V : Type} (d : Dict V) (key : String) (f : V → V) (k : String) :
    dlookup (dmodify d key f) k =
      if k = key then (dlookup d key).map f else dlookup d k := by
  induction d with
  | nil =>
    by_cases h : k = key <;> simp [dmodify, dlookup, h]
  | cons hd tl ih =>
    obtain ⟨k0, v0⟩ := hd
    by_cases h0 : key = k0
    · subst h0
      by_cases h : k = key <;> simp [dmodify, dlookup, h]
    · by_cases h : k = k0
      · subst h
        have hne : k ≠ key := fun h' => h0 h'.symm
        simp [dmodify, h0, dlookup, hne]
      · simp [dmodify, h0, dlookup, h, ih]

theorem dlookup_mem {V : Type} {d : Dict V} {k : String} {v : V}
    (h : dlookup d k = some v) : (k, v) ∈ d := by
  induction d with
  | nil => simp [dlookup] at h
  | cons hd tl ih =>
    obtain ⟨k0, v0⟩ := hd
    by_cases hk : k = k0
    · subst hk
      simp [dlookup] at h
      simp [h]
    · simp [dlookup, hk] at h
      exact List.mem_cons_of_mem _ (ih h)

theorem mem_dinsert_self {V : Type} (d : Dict V) (key : String) (v : V) :
    (key, v) ∈ dinsert d key v := by
  induction d with
  | nil => simp [dinsert]
  | cons hd tl ih =>
    obtain ⟨k0, v0⟩ := hd
    by_cases h0 : key = k0
    · subst h0; simp [dinsert]
    · simp only [dinsert, if_neg h0, List.mem_cons]
      exact Or.inr ih

/-- All values stored in the dict satisfy `P`. -/
def DAll {V : Type} (P : V → Prop) (d : Dict V) : Prop :=
  ∀ k v, dlookup d k = some v → P v

theorem DAll_nil {V : Type} (P : V → Prop) : DAll P ([] : Dict V) := by
  intro k v h; simp [dlookup] at h

theorem DAll_dinsert {V : Type} {P : V → Prop} {d : Dict V}
    (hd : DAll P d) {key : String} {v : V} (hv : P v) : DAll P (dinsert d key v) := by
  intro k w h
  rw [dlookup_dinsert] at h
  by_cases hk : k = key
  · simp [hk] at h; exact h ▸ hv
  · simp [hk] at h; exact hd k w h

theorem foldl_invariant {α β : Type} (P : α → Prop) (f : α → β → α)
    (step : ∀ a b, P a → P (f a b)) :
    ∀ (l : List β) (init : α), P init → P (l.foldl f init) := by
  intro l
  induction l with
  | nil => intro init h; simpa using h
  | cons hd tl ih =>
    intro init h
    simpa using ih (f init hd) (step init hd h)

/-! ## Data model (`engine/models.py`) -/

/-- `ObjectMetadata` from `models.py`. -/
structure ObjectMetadata where
  id : String
  name : String
  description : String
  details : String := ""
  can_pick_up : Bool := false
  can_move : Bool := false
  initial_state : Dict String := []
  contains : List String := []
deriving Repr, DecidableEq

/-- `ActorMetadata` from `models.py`. -/
structure ActorMetadata where
  id : String
  name : String
  description : String
  persona : String := ""
  background : String := ""
  dialogue : Dict String := []
  inventory : List String := []
deriving Repr, DecidableEq

/-- `PathwayMetadata` from `models.py`. -/
structure PathwayMetadata where
  id : String
  name : String
  target : String
  description : String
  locked : Bool := false
  hidden : Bool := false
  unlocks_with : Option String := none
  reveals_with : Option String := none
deriving Repr, DecidableEq

/-- `LocationMetadata` from `models.py`. -/
structure LocationMetadata where
  id : String
  name : String
  image : String
  description : String
  details : String := ""
  objects : List ObjectMetadata := []
  actors : List ActorMetadata := []
  pathways : List PathwayMetadata := []
deriving Repr, DecidableEq

/-- `PlayerMetadata` from `models.py`. -/
structure PlayerMetadata where
  name : String
  description : String := ""
  starting_inventory : List String := []
deriving Repr, DecidableEq

/-- `GameMetadata` from `models.py`; `locations` is a dict keyed by id. -/
structure GameMetadata where
  title : String
  summary : String
  start_location : String
  locations : Dict LocationMetadata
  player : PlayerMetadata
deriving Repr, DecidableEq

/-- `ObjectState` from `models.py`. -/
structure ObjectState where
  status : Dict String := []
  held_by_player : Bool := false
deriving Repr, DecidableEq

/-- `ActorState` from `models.py`. -/
structure ActorState where
  conversation_flags : Dict Bool := []
  inventory : List String := []
deriving Repr, DecidableEq

/-- `PathwayState` from `models.py`. -/
structure PathwayState where
  locked : Bool := false
  hidden : Bool := false
deriving Repr, DecidableEq

/-- `LocationState` from `models.py`. -/
structure LocationState where
  visited : Bool := false
deriving Repr, DecidableEq

/-- `PlayerState` from `models.py`. -/
structure PlayerState where
  location_id : String
  inventory : List String := []
  attributes : Dict String := []
deriving Repr, DecidableEq

/-- `GameState` from `models.py`. -/
structure GameState where
  player : PlayerState
  objects : Dict ObjectState
  actors : Dict ActorState
  pathways : Dict PathwayState
  locations : Dict LocationState
deriving Repr, DecidableEq

/-- Per-entity state dicts accumulated over the locations of the world. -/
structure StateDicts where
  objects : Dict ObjectState
  actors : Dict ActorState
  pathways : Dict PathwayState
  locations : Dict LocationState
deriving Repr, DecidableEq

/-- One iteration of the `for location in game.locations.values()` loop of
`build_initial_state`. -/
def addLocationStates (acc : StateDicts) (location : LocationMetadata) : StateDicts :=
  { locations := dinsert acc.locations location.id { visited := false }
    objects := location.objects.foldl
      (fun d obj => dinsert d obj.id { status := obj.initial_state, held_by_player := false })
      acc.objects
    actors := location.actors.foldl
      (fun d actor => dinsert d actor.id { conversation_flags := [], inventory := [] })
      acc.actors
    pathways := location.pathways.foldl
      (fun d path => dinsert d path.id { locked := path.locked, hidden := path.hidden })
      acc.pathways }

/-- The `for obj_id in player_state.inventory` loop of `build_initial_state`:
mark a starting-inventory object as held when it has a state entry. -/
def markHeld (d : Dict ObjectState) (obj_id : String) : Dict ObjectState :=
  if (dlookup d obj_id).isSome then
    dmodify d obj_id (fun s => { s with held_by_player := true })
  else d

/-- `build_initial_state` from `models.py`. -/
def build_initial_state (game : GameMetadata) : GameState :=
  let dicts := (game.locations.map (fun p => p.2)).foldl addLocationStates
    { objects := [], actors := [], pathways := [], locations := [] }
  let player : PlayerState :=
    { location_id := game.start_location
      inventory := game.player.starting_inventory
      attributes := [] }
  let objects := player.inventory.foldl markHeld dicts.objects
  { player := player
    objects := objects
    actors := dicts.actors
    pathways := dicts.pathways
    locations := dicts.locations }

/-- `GameEngine.__init__` (`engine.py` lines 36-37): build the initial state
then mark the start location visited; indexing a missing location raises. -/
def engineInit (metadata : GameMetadata) : Except Unit GameState :=
  let st := build_initial_state metadata
  match dlookup st.locations st.player.location_id with
  | none => .error ()
  | some _ =>
      .ok { st with
              locations := dmodify st.locations st.player.location_id
                (fun l => { l with visited := true }) }

/-! ## Command interpreter (`engine/engine.py`)

Artwork rendering inside the interpreter is abstracted by a parameter
`locArt : LocationMetadata → Option String` (the result of
`_render_location_image`, `none` when disabled or the image reference is
blank) and `mapArt : Option String` (the result of
`_render_image_asset "images/PirateMap.png"` in `show_map`): both only
contribute text, never world state.  The narrative collaborator is
abstracted by `Option LLMResult`: `none` models `llm_client is None`, and
`LLMResult.failure` models any raised collaborator exception. -/

/-! ## Python string primitives

Core `String` operations (`trim`, `toLower`, `startsWith`, `splitOn`) are
implemented over iterators and do not reduce definitionally, so the Python
string operations are modelled by structural recursion over the character
list (Python strings are sequences of code points, and the engine's inputs
are ASCII). -/

/-- Python `str.strip()`: drop leading and trailing whitespace. -/
def pyStrip (s : String) : String :=
  ⟨((s.data.dropWhile Char.isWhitespace).reverse.dropWhile Char.isWhitespace).reverse⟩

/-- Python `str.lower()` (ASCII case mapping). -/
def pyLower (s : String) : String := ⟨s.data.map Char.toLower⟩

/-- Python `str.startswith(p)`. -/
def pyStartsWith (s p : String) : Bool := p.data.isPrefixOf s.data

/-- Python slicing `s[n:]` by code points. -/
def pyDrop (s : String) (n : Nat) : String := ⟨s.data.drop n⟩

/-- Python `len(s)` in code points. -/
def pyLen (s : String) : Nat := s.data.length

/-- Python `s.split(" ", 1)`: `none` when `s` has no space, else the
characters before and after the first space. -/
def splitFirstSpace : List Char → Option (List Char × List Char)
  | [] => none
  | c :: rest =>
    if c = ' ' then some ([], rest)
    else (splitFirstSpace rest).map (fun p => (c :: p.1, p.2))

/-- `CommandResponse` from `engine.py`. -/
structure CommandResponse where
  output : String
  handled : Bool := true
deriving Repr, DecidableEq

/-- Python `str.join` over a list. -/
def joinSep (sep : String) : List String → String
  | [] => ""
  | [x] => x
  | x :: rest => x ++ sep ++ joinSep sep (rest)

/-- Dict indexing `d[k]`: a missing key raises `KeyError`. -/
def lookupE {V : Type} (d : Dict V) (k : String) : Except Unit V :=
  match dlookup d k with
  | some v => .ok v
  | none => .error ()

/-- `GameEngine.current_location`: `self.metadata.locations[self.state.player.location_id]`. -/
def currentLocation (meta : GameMetadata) (st : GameState) : Except Unit LocationMetadata :=
  lookupE meta.locations st.player.location_id

/-- Scan a location's object list for an id (used by `_object_by_id` and
`show_map`). -/
def objInList (obj_id : String) : List ObjectMetadata → Option ObjectMetadata
  | [] => none
  | obj :: rest => if obj.id = obj_id then some obj else objInList obj_id rest

/-- Inner loop of `GameEngine._object_by_id` over the location values. -/
def objInLocations (obj_id : String) : List LocationMetadata → Option ObjectMetadata
  | [] => none
  | loc :: rest =>
    match objInList obj_id loc.objects with
    | some o => some o
    | none => objInLocations obj_id rest

/-- `GameEngine._object_by_id`. -/
def object_by_id (meta : GameMetadata) (obj_id : String) : Option ObjectMetadata :=
  objInLocations obj_id (meta.locations.map (fun p => p.2))

/-- `self.state.objects[obj.id].held_by_player` (raises on a missing entry). -/
def heldFlag (st : GameState) (obj_id : String) : Except Unit Bool := do
  let ost ← lookupE st.objects obj_id
  pure ost.held_by_player

/-- The location loop of `_match_object_in_scope`: returns the early-returned
match (an unheld name/id match) and the list of deferred held candidates. -/
def matchLocObjects (st : GameState) (tl : String) :
    List ObjectMetadata → Except Unit (Option ObjectMetadata × List ObjectMetadata)
  | [] => .ok (none, [])
  | obj :: rest =>
    if pyLower obj.name = tl ∨ pyLower obj.id = tl then do
      let h ← heldFlag st obj.id
      if h then do
        let (found, cands) ← matchLocObjects st tl rest
        pure (found, obj :: cands)
      else pure (some obj, [])
    else matchLocObjects st tl rest

/-- The inventory loop of `_match_object_in_scope`. -/
def invMatch (meta : GameMetadata) (tl : String) : List String → Option ObjectMetadata
  | [] => none
  | obj_id :: rest =>
    match object_by_id meta obj_id with
    | some obj =>
      if pyLower obj.name = tl ∨ pyLower obj.id = tl then some obj
      else invMatch meta tl rest
    | none => invMatch meta tl rest

/-- `GameEngine._match_object_in_scope`. -/
def match_object_in_scope (meta : GameMetadata) (st : GameState) (target : String)
    (include_inventory : Bool) : Except Unit (Option ObjectMetadata) := do
  let location ← currentLocation meta st
  let tl := pyLower target
  let (found, candidates) ← matchLocObjects st tl location.objects
  match found with
  | some obj => pure (some obj)
  | none =>
    match (if include_inventory then invMatch meta tl st.player.inventory else none) with
    | some obj => pure (some obj)
    | none => pure candidates.head?

/-- The loop of `GameEngine._match_actor_in_scope`. -/
def matchActors (tl : String) : List ActorMetadata → Option ActorMetadata
  | [] => none
  | a :: rest =>
    if pyLower a.name = tl ∨ pyLower a.id = tl then some a else matchActors tl rest

/-- `GameEngine._match_actor_in_scope`. -/
def match_actor_in_scope (meta : GameMetadata) (st : GameState) (target : String) :
    Except Unit (Option ActorMetadata) := do
  let location ← currentLocation meta st
  pure (matchActors (pyLower target) location.actors)

/-- The loop of `GameEngine._match_pathway_in_scope`. -/
def matchPathways (tl : String) : List PathwayMetadata → Option PathwayMetadata
  | [] => none
  | p :: rest =>
    if pyLower p.name = tl ∨ pyLower p.id = tl then some p else matchPathways tl rest

/-- `GameEngine._match_pathway_in_scope`. -/
def match_pathway_in_scope (meta : GameMetadata) (st : GameState) (target : String) :
    Except Unit (Option PathwayMetadata) := do
  let location ← currentLocation meta st
  pure (matchPathways (pyLower target) location.pathways)

/-- `GameEngine._visible_pathways`: location pathways whose state is not
hidden (a missing pathway state raises). -/
def visible_pathways (st : GameState) :
    List PathwayMetadata → Except Unit (List PathwayMetadata)
  | [] => .ok []
  | p :: rest => do
    let ps ← lookupE st.pathways p.id
    let tail ← visible_pathways st rest
    pure (if ps.hidden then tail else p :: tail)

/-- Names of location objects not held by the player (the generator in
`describe_current_location`; a missing object state raises). -/
def visibleObjectNames (st : GameState) :
    List ObjectMetadata → Except Unit (List String)
  | [] => .ok []
  | obj :: rest => do
    let h ← heldFlag st obj.id
    let tail ← visibleObjectNames st rest
    pure (if h then tail else obj.name :: tail)

/-- `GameEngine.describe_current_location`. -/
def describe_current_location (meta : GameMetadata)
    (locArt : LocationMetadata → Option String) (st : GameState) :
    Except Unit String := do
  let location ← currentLocation meta st
  let artParts : List String :=
    match locArt location with
    | some art => if art = "" then [] else [art]
    | none => []
  let parts := artParts ++ ["Location: " ++ location.name, location.description]
  let parts :=
    if location.actors.isEmpty then parts
    else parts ++
      ["You can see: " ++ joinSep ", " (location.actors.map (fun a => a.name)) ++ "."]
  let parts ←
    if location.objects.isEmpty then pure parts
    else do
      let names ← visibleObjectNames st location.objects
      let object_names := joinSep ", " names
      pure (if object_names = "" then parts
            else parts ++ ["Nearby objects: " ++ object_names ++ "."])
  let vis ← visible_pathways st location.pathways
  let parts :=
    if vis.isEmpty then parts
    else parts ++ ["Exits: " ++ joinSep ", " (vis.map (fun p => p.name)) ++ "."]
  pure (joinSep "\n" parts)

/-- `GameEngine.describe_location_details`. -/
def describe_location_details (meta : GameMetadata) (st : GameState) :
    Except Unit String := do
  let location ← currentLocation meta st
  let details := pyStrip location.details
  pure (if details = "" then "Nothing notable beyond the obvious." else details)

/-- `GameEngine.describe_inventory`. -/
def describe_inventory (meta : GameMetadata) (st : GameState) : String :=
  if st.player.inventory.isEmpty then "Your inventory is empty."
  else
    "You carry: " ++ joinSep ", "
      (st.player.inventory.filterMap
        (fun obj_id => (object_by_id meta obj_id).map (fun m => m.name)))

/-- `GameEngine.describe_help`. -/
def describe_help : String :=
  "Commands: look, details, inventory, map, inspect <object>, take <object>, open <object>, talk <actor>, go <path>."

/-- `GameEngine.inspect_object`. -/
def inspect_object (meta : GameMetadata) (st : GameState) :
    Option String → Except Unit String
  | none => pure "Inspect what?"
  | some t => do
    let obj? ← match_object_in_scope meta st t true
    match obj? with
    | none => pure ("There is no '" ++ t ++ "' to inspect.")
    | some obj =>
      let state? := dlookup st.objects obj.id
      let description := obj.description
      let description :=
        if obj.details = "" then description else description ++ "\n" ++ obj.details
      let description :=
        match state? with
        | some ost =>
          if ost.status.isEmpty then description
          else description ++ "\nCurrent state: " ++
            joinSep ", " (ost.status.map (fun p => p.1 ++ "=" ++ p.2)) ++ "."
        | none => description
      pure description

/-- `GameEngine.take_object`. -/
def take_object (meta : GameMetadata) (st : GameState) :
    Option String → Except Unit (String × GameState)
  | none => pure ("Take what?", st)
  | some t => do
    let obj? ← match_object_in_scope meta st t false
    match obj? with
    | none => pure ("You cannot find '" ++ t ++ "'.", st)
    | some obj => do
      let ost ← lookupE st.objects obj.id
      if ost.held_by_player then pure ("You already have it.", st)
      else if ¬ obj.can_pick_up then pure ("That cannot be picked up.", st)
      else
        let st' : GameState :=
          { st with
            objects := dmodify st.objects obj.id (fun s => { s with held_by_player := true })
            player := { st.player with inventory := st.player.inventory ++ [obj.id] } }
        pure ("You pick up the " ++ obj.name ++ ".", st')

/-- `GameEngine.open_object`. -/
def open_object (meta : GameMetadata) (st : GameState) :
    Option String → Except Unit (String × GameState)
  | none => pure ("Open what?", st)
  | some t => do
    let obj? ← match_object_in_scope meta st t true
    match obj? with
    | none => pure ("There is no '" ++ t ++ "' here.", st)
    | some obj => do
      let ost ← lookupE st.objects obj.id
      if dlookup ost.status "open" = some "true" then pure ("It is already open.", st)
      else
        let st' : GameState :=
          { st with
            objects := dmodify st.objects obj.id
              (fun s => { s with status := dinsert s.status "open" "true" }) }
        pure ("You open the " ++ obj.name ++ ".", st')

/-- `GameEngine.talk_to_actor`. -/
def talk_to_actor (meta : GameMetadata) (st : GameState) :
    Option String → Except Unit String
  | none => pure "Talk to whom?"
  | some t => do
    let a? ← match_actor_in_scope meta st t
    match a? with
    | none => pure ("No one named '" ++ t ++ "' is here.")
    | some actor =>
      pure (match dlookup actor.dialogue "default" with
            | some d => if d = "" then actor.description else d
            | none => actor.description)

/-- `GameEngine.move_to_location`. -/
def move_to_location (meta : GameMetadata) (locArt : LocationMetadata → Option String)
    (st : GameState) : Option String → Except Unit (String × GameState)
  | none => pure ("Go where?", st)
  | some t => do
    let p? ← match_pathway_in_scope meta st t
    match p? with
    | none => pure ("There is no path called '" ++ t ++ "'.", st)
    | some pathway => do
      let ps ← lookupE st.pathways pathway.id
      if ps.hidden then pure ("You do not know how to go that way.", st)
      else if ps.locked then pure ("That way is locked.", st)
      else do
        let st1 : GameState :=
          { st with player := { st.player with location_id := pathway.target } }
        let _ ← lookupE st1.locations pathway.target
        let st2 : GameState :=
          { st1 with
            locations := dmodify st1.locations pathway.target
              (fun l => { l with visited := true }) }
        let out ← describe_current_location meta locArt st2
        pure (out, st2)

/-- `GameEngine.show_map`. -/
def show_map (meta : GameMetadata) (mapArt : Option String) (st : GameState) :
    Except Unit String := do
  let location ← currentLocation meta st
  if location.id ≠ "captains_cabin" then pure "There is no map to study here."
  else
    let map_object := objInList "treasure_map" location.objects
    let description :=
      match map_object with
      | some mo =>
        if mo.details = "" then
          "The weathered parchment hints at a hidden cove marked with a bold red X."
        else mo.details
      | none => "The weathered parchment hints at a hidden cove marked with a bold red X."
    match mapArt with
    | some a =>
      if a = "" then pure (description ++ "\nMap available at /assets/images/PirateMap.png")
      else pure (a ++ "\n" ++ description)
    | none => pure (description ++ "\nMap available at /assets/images/PirateMap.png")

/-- Outcome of one call to the narrative collaborator: produced text, or any
raised failure (`LLMUnavailableError` and every other exception are handled
identically by `_llm_response`). -/
inductive LLMResult where
  | success (text : String)
  | failure
deriving Repr, DecidableEq

/-- `GameEngine._llm_response` (the conversational-history buffer is omitted:
it feeds only the abstracted collaborator, never the returned text or the
world state). -/
def llm_response (llm : Option LLMResult) (lore : String) : String × Bool :=
  let fallback :=
    "The narrative engine would answer via an AI, drawing only from known details. For now, consult the location notes:\n"
      ++ lore
  match llm with
  | none => (fallback, false)
  | some .failure => (fallback, false)
  | some (.success response) => (response, true)

/-- `cleanup_prefixes` from `GameEngine._extract_target`. -/
def cleanup_prefixes : List String := ["to ", "the ", "at ", "toward ", "towards "]

/-- One `for prefix in cleanup_prefixes` step of `_extract_target`. -/
def stripStep (acc : String × Bool) (p : String) : String × Bool :=
  if pyStartsWith acc.1 p then (pyStrip (pyDrop acc.1 (pyLen p)), true) else acc

/-- The `while changed and target` loop of `_extract_target`.  The fuel is
called with `target.length + 1`, which the loop cannot exhaust: every
continuing pass strips at least one nonempty filler word, strictly
shortening the target. -/
def stripLoop : Nat → String → String
  | 0, t => t
  | fuel + 1, t =>
    if t = "" then t
    else
      let r := cleanup_prefixes.foldl stripStep (t, false)
      if r.2 then stripLoop fuel r.1 else r.1

/-- `GameEngine._extract_target`: split at the first space, trim, then strip
filler words repeatedly; an empty remainder becomes `none`. -/
def extract_target (command : String) : Option String :=
  match splitFirstSpace command.data with
  | none => none
  | some (_, afterChars) =>
    let target := pyStrip (String.mk afterChars)
    let t := stripLoop (pyLen target + 1) target
    if t = "" then none else some t

/-- `GameEngine.handle_command`. -/
def handle_command (meta : GameMetadata) (locArt : LocationMetadata → Option String)
    (mapArt : Option String) (llm : Option LLMResult) (st : GameState)
    (raw_input : String) : Except Unit (CommandResponse × GameState) := do
  let command := pyStrip raw_input
  if command = "" then do
    let out ← describe_current_location meta locArt st
    pure (CommandResponse.mk out true, st)
  else
    let lowered := pyLower command
    if lowered = "look" ∨ lowered = "look around" ∨ lowered = "l" then do
      let out ← describe_current_location meta locArt st
      pure (CommandResponse.mk out true, st)
    else if lowered = "details" ∨ lowered = "examine location" then do
      let out ← describe_location_details meta st
      pure (CommandResponse.mk out true, st)
    else if lowered = "inventory" ∨ lowered = "i" then
      pure (CommandResponse.mk (describe_inventory meta st) true, st)
    else if lowered = "help" then
      pure (CommandResponse.mk describe_help true, st)
    else if lowered = "map" ∨ lowered = "view map" ∨ lowered = "study map"
        ∨ lowered = "look at map" then do
      let out ← show_map meta mapArt st
      pure (CommandResponse.mk out true, st)
    else if pyStartsWith lowered "inspect " ∨ pyStartsWith lowered "examine " then do
      let out ← inspect_object meta st (extract_target lowered)
      pure (CommandResponse.mk out true, st)
    else if pyStartsWith lowered "take " ∨ pyStartsWith lowered "pick up " then do
      let r ← take_object meta st (extract_target lowered)
      pure (CommandResponse.mk r.1 true, r.2)
    else if pyStartsWith lowered "open " then do
      let r ← open_object meta st (extract_target lowered)
      pure (CommandResponse.mk r.1 true, r.2)
    else if pyStartsWith lowered "talk " ∨ pyStartsWith lowered "speak " then do
      let out ← talk_to_actor meta st (extract_target lowered)
      pure (CommandResponse.mk out true, st)
    else if pyStartsWith lowered "go " ∨ pyStartsWith lowered "move " then
      let target := extract_target lowered
      if target = some "map" then do
        let out ← show_map meta mapArt st
        pure (CommandResponse.mk out true, st)
      else do
        let r ← move_to_location meta locArt st target
        pure (CommandResponse.mk r.1 true, r.2)
    else do
      let lore ← describe_location_details meta st
      let r := llm_response llm lore
      pure (CommandResponse.mk r.1 r.2, st)

/-! ## A sample world used for witnesses and counterexamples -/

/-- Sample object: a sword that can be picked up. -/
def swordM : ObjectMetadata :=
  { id := "sword", name := "Sword", description := "A sharp sword.", can_pick_up := true }

/-- Sample object: a chest whose status starts closed. -/
def chestM : ObjectMetadata :=
  { id := "chest", name := "Chest", description := "A wooden chest.",
    initial_state := [("open", "false")] }

/-- Sample object: an anchor that cannot be picked up. -/
def anchorM : ObjectMetadata :=
  { id := "anchor", name := "Anchor", description := "Heavy.", can_pick_up := false }

/-- Sample object: a coin, listed in both the player's and Bob's starting
inventory. -/
def coinM : ObjectMetadata := { id := "coin", name := "Coin", description := "Shiny." }

/-- Sample actor with a starting inventory. -/
def bobM : ActorMetadata :=
  { id := "bob", name := "Bob", description := "A sailor.",
    dialogue := [("default", "Arr.")], inventory := ["coin"] }

/-- Sample pathway: an ordinary hatch to the cabin. -/
def hatchM : PathwayMetadata :=
  { id := "hatch", name := "Hatch", target := "cabin", description := "" }

/-- Sample pathway: a hidden passage. -/
def secretM : PathwayMetadata :=
  { id := "secret", name := "Secret", target := "cabin", description := "", hidden := true }

/-- Sample pathway: a locked gate. -/
def gateM : PathwayMetadata :=
  { id := "gate", name := "Gate", target := "cabin", description := "", locked := true }

/-- Sample start location. -/
def deckM : LocationMetadata :=
  { id := "deck", name := "Deck", image := "", description := "The deck.",
    details := "Salty planks.", objects := [swordM, chestM, anchorM, coinM],
    actors := [bobM], pathways := [hatchM, secretM, gateM] }

/-- Sample second location. -/
def cabinM : LocationMetadata :=
  { id := "cabin", name := "Cabin", image := "", description := "The cabin.",
    pathways := [{ id := "hatch_back", name := "Hatch", target := "deck", description := "" }] }

/-- The sample world. -/
def sampleMeta : GameMetadata :=
  { title := "T", summary := "S", start_location := "deck",
    locations := [("deck", deckM), ("cabin", cabinM)],
    player := { name := "P", starting_inventory := ["coin"] } }

/-- Artwork rendering disabled (`render_ascii_art=False`), used to
instantiate the interpreter concretely. -/
def noArt : LocationMetadata → Option String := fun _ => none

/-- The sample world's state right after session initialization. -/
def sampleSt : GameState :=
  match engineInit sampleMeta with
  | .ok s => s
  | .error _ => build_initial_state sampleMeta

/-! ## Structure of the initial state -/

theorem build_locations_visited_false (game : GameMetadata) :
    DAll (fun l : LocationState => l.visited = false)
      (build_initial_state game).locations := by
  have h : ∀ acc : StateDicts,
      DAll (fun l : LocationState => l.visited = false) acc.locations →
      DAll (fun l : LocationState => l.visited = false)
        ((game.locations.map (fun p => p.2)).foldl addLocationStates acc).locations := by
    intro acc hacc
    exact foldl_invariant
      (fun a : StateDicts => DAll (fun l : LocationState => l.visited = false) a.locations)
      addLocationStates
      (fun a loc ha => DAll_dinsert ha rfl) _ acc hacc
  exact h { objects := [], actors := [], pathways := [], locations := [] }
    (DAll_nil _)

theorem build_actors_inventory_empty (game : GameMetadata) :
    DAll (fun a : ActorState => a.inventory = [])
      (build_initial_state game).actors := by
  have step : ∀ (a : StateDicts) (loc : LocationMetadata),
      DAll (fun s : ActorState => s.inventory = []) a.actors →
      DAll (fun s : ActorState => s.inventory = []) (addLocationStates a loc).actors := by
    intro a loc ha
    exact foldl_invariant
      (fun d : Dict ActorState => DAll (fun s : ActorState => s.inventory = []) d)
      (fun d actor => dinsert d actor.id { conversation_flags := [], inventory := [] })
      (fun d actor hd => DAll_dinsert hd rfl) loc.actors a.actors ha
  exact foldl_invariant
    (fun a : StateDicts => DAll (fun s : ActorState => s.inventory = []) a.actors)
    addLocationStates step (game.locations.map (fun p => p.2))
    { objects := [], actors := [], pathways := [], locations := [] } (DAll_nil _)

theorem build_objects_held_false_base (game : GameMetadata) :
    DAll (fun o : ObjectState => o.held_by_player = false)
      (((game.locations.map (fun p => p.2)).foldl addLocationStates
        { objects := [], actors := [], pathways := [], locations := [] }).objects) := by
  have step : ∀ (a : StateDicts) (loc : LocationMetadata),
      DAll (fun s : ObjectState => s.held_by_player = false) a.objects →
      DAll (fun s : ObjectState => s.held_by_player = false) (addLocationStates a loc).objects := by
    intro a loc ha
    exact foldl_invariant
      (fun d : Dict ObjectState => DAll (fun s : ObjectState => s.held_by_player = false) d)
      (fun d obj => dinsert d obj.id { status := obj.initial_state, held_by_player := false })
      (fun d obj hd => DAll_dinsert hd rfl) loc.objects a.objects ha
  exact foldl_invariant
    (fun a : StateDicts => DAll (fun s : ObjectState => s.held_by_player = false) a.objects)
    addLocationStates step (game.locations.map (fun p => p.2))
    { objects := [], actors := [], pathways := [], locations := [] } (DAll_nil _)

theorem foldl_markHeld_dlookup (inv : List String) (d : Dict ObjectState) (k : String) :
    dlookup (inv.foldl markHeld d) k
      = (dlookup d k).map
          (fun ost => { ost with held_by_player := ost.held_by_player || decide (k ∈ inv) }) := by
  induction inv generalizing d with
  | nil =>
    cases h : dlookup d k <;> simp [h]
  | cons i rest ih =>
    show dlookup (rest.foldl markHeld (markHeld d i)) k = _
    rw [ih]
    unfold markHeld
    by_cases hi : (dlookup d i).isSome
    · simp only [hi, if_true]
      rw [dlookup_dmodify]
      by_cases hk : k = i
      · subst hk
        obtain ⟨osti, hosti⟩ := Option.isSome_iff_exists.mp hi
        simp [hosti]
      · simp only [if_neg hk]
        cases h : dlookup d k with
        | none => simp [h]
        | some ost => simp [h, hk]
    · simp only [hi, if_false]
      by_cases hk : k = i
      · subst hk
        have hn : dlookup d k = none := Option.not_isSome_iff_eq_none.mp hi
        simp [hn]
      · cases h : dlookup d k with
        | none => simp [h]
        | some ost => simp [h, hk]

theorem build_objects_held_iff (game : GameMetadata) (k : String) (ost : ObjectState)
    (h : dlookup (build_initial_state game).objects k = some ost) :
    (ost.held_by_player = true ↔ k ∈ game.player.starting_inventory) := by
  have hbase := build_objects_held_false_base game
  rw [show (build_initial_state game).objects
        = game.player.starting_inventory.foldl markHeld
            (((game.locations.map (fun p => p.2)).foldl addLocationStates
              { objects := [], actors := [], pathways := [], locations := [] }).objects)
      from rfl] at h
  rw [foldl_markHeld_dlookup] at h
  cases h0 : dlookup (((game.locations.map (fun p => p.2)).foldl addLocationStates
      { objects := [], actors := [], pathways := [], locations := [] }).objects) k with
  | none => rw [h0] at h; simp at h
  | some ost0 =>
    rw [h0] at h
    simp only [Option.map_some'] at h
    have hheld : ost0.held_by_player = false := hbase k ost0 h0
    have hh : ost = { ost0 with
        held_by_player := ost0.held_by_player
          || decide (k ∈ game.player.starting_inventory) } :=
      (Option.some_inj.mp h).symm
    rw [hh]
    simp [hheld]

/-- C9: for every world, immediately after session initialization
(`build_initial_state` followed by the `GameEngine.__init__` visited-flag
update) the start location's `LocationState.visited` is true and every other
location's visited flag is false. -/
theorem c9_initial_visited (meta : GameMetadata) (st : GameState)
    (h : engineInit meta = .ok st) (l : String) (ls : LocationState)
    (hl : dlookup st.locations l = some ls) :
    (ls.visited = true ↔ l = meta.start_location) := by
  simp only [engineInit] at h
  cases h0 : dlookup (build_initial_state meta).locations
      (build_initial_state meta).player.location_id with
  | none => rw [h0] at h; exact absurd h (by simp)
  | some ls0 =>
    rw [h0] at h
    simp only [Except.ok.injEq] at h
    subst h
    have hstart : (build_initial_state meta).player.location_id = meta.start_location := rfl
    rw [dlookup_dmodify] at hl
    by_cases hls : l = meta.start_location
    · rw [if_pos (hstart ▸ hls)] at hl
      rw [h0] at hl
      simp only [Option.map_some'] at hl
      have : ls = { ls0 with visited := true } := (Option.some_inj.mp hl).symm
      rw [this]
      simp [hls]
    · rw [if_neg (fun hcontra => hls (hstart ▸ hcontra))] at hl
      have hfalse : ls.visited = false := build_locations_visited_false meta l ls hl
      simp [hfalse, hls]

/-- Witness for `c9_initial_visited` at the sample world: the start location
`deck` is visited, the other location `cabin` is not. -/
theorem c9_initial_visited_witness :
    (({ visited := true } : LocationState).visited = true
      ↔ "deck" = sampleMeta.start_location)
    ∧ (({ visited := false } : LocationState).visited = true
      ↔ "cabin" = sampleMeta.start_location) :=
  ⟨c9_initial_visited sampleMeta sampleSt rfl "deck" { visited := true } rfl,
   c9_initial_visited sampleMeta sampleSt rfl "cabin" { visited := false } rfl⟩

/-- The C2 claim exactly as stated (spec side, for refutation): every object
id in the player's starting inventory that has a state entry is held, and
every object id in an actor's starting inventory has been moved into that
actor's `ActorState.inventory`. -/
def claimC2 (game : GameMetadata) : Prop :=
  (∀ oid ∈ game.player.starting_inventory,
    ∀ ost, dlookup (build_initial_state game).objects oid = some ost →
      ost.held_by_player = true)
  ∧ ∀ loc ∈ game.locations.map (fun p => p.2), ∀ actor ∈ loc.actors,
      ∀ oid ∈ actor.inventory,
      ∃ ast, dlookup (build_initial_state game).actors actor.id = some ast ∧
        oid ∈ ast.inventory

/-- C2 counterexample: in the sample world the actor `bob` starts with
`coin` in `ActorMetadata.inventory`, yet `build_initial_state` leaves his
`ActorState.inventory` empty — the actor half of the claim is false. -/
theorem c2_counterexample : ¬ claimC2 sampleMeta := by
  intro h
  obtain ⟨ast, h1, h2⟩ :=
    h.2 deckM (by simp [sampleMeta]) bobM (by simp [deckM]) "coin" (by simp [bobM])
  have hast : ast = { conversation_flags := [], inventory := [] } := by
    have h3 : dlookup (build_initial_state sampleMeta).actors bobM.id
        = some { conversation_flags := [], inventory := [] } := rfl
    rw [h3] at h1
    exact (Option.some_inj.mp h1).symm
  rw [hast] at h2
  simp at h2

/-- C2 (amended): `build_initial_state` marks every player-starting-inventory
object that has a state entry as `held_by_player`; actor starting
inventories are NOT transferred — every `ActorState` in the initial state
has an empty inventory. -/
theorem c2_initial_inventories (game : GameMetadata) :
    (∀ oid ∈ game.player.starting_inventory,
      ∀ ost, dlookup (build_initial_state game).objects oid = some ost →
        ost.held_by_player = true)
    ∧ (∀ aid ast, dlookup (build_initial_state game).actors aid = some ast →
        ast.inventory = []) := by
  constructor
  · intro oid hmem ost h
    exact (build_objects_held_iff game oid ost h).mpr hmem
  · intro aid ast h
    exact build_actors_inventory_empty game aid ast h

/-- Witness for `c2_initial_inventories` at the sample world: the player's
starting `coin` is held, and Bob's actor state has an empty inventory. -/
theorem c2_initial_inventories_witness :
    ({ status := [], held_by_player := true } : ObjectState).held_by_player = true
    ∧ ({ conversation_flags := [], inventory := [] } : ActorState).inventory = [] :=
  ⟨(c2_initial_inventories sampleMeta).1 "coin" (by simp [sampleMeta])
      { status := [], held_by_player := true } rfl,
   (c2_initial_inventories sampleMeta).2 "bob"
      { conversation_flags := [], inventory := [] } rfl⟩

/-! ## The held-inventory coupling invariant (C10) -/

@[simp] theorem bind_ok_unit {α β : Type} (a : α) (f : α → Except Unit β) :
    (Except.ok a >>= f) = f a := rfl

@[simp] theorem bind_error_unit {α β : Type} (f : α → Except Unit β) (e : Unit) :
    ((Except.error e : Except Unit α) >>= f) = Except.error e := rfl

@[simp] theorem pure_eq_ok {α : Type} (a : α) : (pure a : Except Unit α) = Except.ok a := rfl

/-- The implicit invariant of C10: an object's `held_by_player` flag is set
exactly when its id occurs in `PlayerState.inventory`. -/
def heldInvariant (st : GameState) : Prop :=
  ∀ oid ost, dlookup st.objects oid = some ost →
    (ost.held_by_player = true ↔ oid ∈ st.player.inventory)

theorem heldInvariant_congr {st st' : GameState}
    (ho : st'.objects = st.objects) (hi : st'.player.inventory = st.player.inventory)
    (h : heldInvariant st) : heldInvariant st' := by
  intro oid ost hl
  rw [ho] at hl
  rw [hi]
  exact h oid ost hl

theorem take_object_preserves (meta : GameMetadata) (st : GameState)
    (target : Option String) (out : String) (st' : GameState)
    (h : take_object meta st target = .ok (out, st'))
    (hinv : heldInvariant st) : heldInvariant st' := by
  cases target with
  | none =>
    simp only [take_object, pure_eq_ok, Except.ok.injEq, Prod.mk.injEq] at h
    exact heldInvariant_congr (by rw [h.2]) (by rw [h.2]) hinv
  | some t =>
    simp only [take_object] at h
    cases hm : match_object_in_scope meta st t false with
    | error e => rw [hm] at h; simp at h
    | ok obj? =>
      rw [hm] at h
      simp only [bind_ok_unit] at h
      cases obj? with
      | none =>
        simp only [pure_eq_ok, Except.ok.injEq, Prod.mk.injEq] at h
        exact heldInvariant_congr (by rw [h.2]) (by rw [h.2]) hinv
      | some obj =>
        simp only [] at h
        cases hos : lookupE st.objects obj.id with
        | error e => rw [hos] at h; simp at h
        | ok ost =>
          rw [hos] at h
          simp only [bind_ok_unit] at h
          by_cases hheld : ost.held_by_player
          · rw [if_pos hheld] at h
            simp only [pure_eq_ok, Except.ok.injEq, Prod.mk.injEq] at h
            exact heldInvariant_congr (by rw [h.2]) (by rw [h.2]) hinv
          · rw [if_neg hheld] at h
            by_cases hpick : obj.can_pick_up
            · rw [if_neg (by simp [hpick])] at h
              simp only [pure_eq_ok, Except.ok.injEq, Prod.mk.injEq] at h
              rw [← h.2]
              intro oid ost0 hl
              simp only [dlookup_dmodify] at hl
              have hlook : dlookup st.objects obj.id = some ost := by
                unfold lookupE at hos
                cases h' : dlookup st.objects obj.id with
                | none => rw [h'] at hos; simp at hos
                | some v => rw [h'] at hos; simp at hos; rw [hos]
              by_cases hoid : oid = obj.id
              · rw [if_pos hoid, hlook] at hl
                simp only [Option.map_some'] at hl
                have : ost0 = { ost with held_by_player := true } :=
                  (Option.some_inj.mp hl).symm
                rw [this]
                simp [hoid]
              · rw [if_neg hoid] at hl
                have := hinv oid ost0 hl
                simp only [List.mem_append, List.mem_singleton]
                rw [this]
                simp [hoid]
            · rw [if_pos (by simp [hpick])] at h
              simp only [pure_eq_ok, Except.ok.injEq, Prod.mk.injEq] at h
              exact heldInvariant_congr (by rw [h.2]) (by rw [h.2]) hinv

theorem open_object_preserves (meta : GameMetadata) (st : GameState)
    (target : Option String) (out : String) (st' : GameState)
    (h : open_object meta st target = .ok (out, st'))
    (hinv : heldInvariant st) : heldInvariant st' := by
  cases target with
  | none =>
    simp only [open_object, pure_eq_ok, Except.ok.injEq, Prod.mk.injEq] at h
    exact heldInvariant_congr (by rw [h.2]) (by rw [h.2]) hinv
  | some t =>
    simp only [open_object] at h
    cases hm : match_object_in_scope meta st t true with
    | error e => rw [hm] at h; simp at h
    | ok obj? =>
      rw [hm] at h
      simp only [bind_ok_unit] at h
      cases obj? with
      | none =>
        simp only [pure_eq_ok, Except.ok.injEq, Prod.mk.injEq] at h
        exact heldInvariant_congr (by rw [h.2]) (by rw [h.2]) hinv
      | some obj =>
        simp only [] at h
        cases hos : lookupE st.objects obj.id with
        | error e => rw [hos] at h; simp at h
        | ok ost =>
          rw [hos] at h
          simp only [bind_ok_unit] at h
          by_cases hopen : dlookup ost.status "open" = some "true"
          · rw [if_pos hopen] at h
            simp only [pure_eq_ok, Except.ok.injEq, Prod.mk.injEq] at h
            exact heldInvariant_congr (by rw [h.2]) (by rw [h.2]) hinv
          · rw [if_neg hopen] at h
            simp only [pure_eq_ok, Except.ok.injEq, Prod.mk.injEq] at h
            rw [← h.2]
            intro oid ost0 hl
            simp only [dlookup_dmodify] at hl
            by_cases hoid : oid = obj.id
            · rw [if_pos hoid] at hl
              cases h' : dlookup st.objects obj.id with
              | none => rw [h'] at hl; simp at hl
              | some v =>
                rw [h'] at hl
                simp only [Option.map_some'] at hl
                have : ost0 = { v with status := dinsert v.status "open" "true" } :=
                  (Option.some_inj.mp hl).symm
                rw [this]
                exact hoid ▸ hinv oid v (hoid ▸ h')
            · rw [if_neg hoid] at hl
              exact hinv oid ost0 hl

theorem move_to_location_preserves (meta : GameMetadata)
    (locArt : LocationMetadata → Option String) (st : GameState)
    (target : Option String) (out : String) (st' : GameState)
    (h : move_to_location meta locArt st target = .ok (out, st'))
    (hinv : heldInvariant st) : heldInvariant st' := by
  cases target with
  | none =>
    simp only [move_to_location, pure_eq_ok, Except.ok.injEq, Prod.mk.injEq] at h
    exact heldInvariant_congr (by rw [h.2]) (by rw [h.2]) hinv
  | some t =>
    simp only [move_to_location] at h
    cases hm : match_pathway_in_scope meta st t with
    | error e => rw [hm] at h; simp at h
    | ok p? =>
      rw [hm] at h
      simp only [bind_ok_unit] at h
      cases p? with
      | none =>
        simp only [pure_eq_ok, Except.ok.injEq, Prod.mk.injEq] at h
        exact heldInvariant_congr (by rw [h.2]) (by rw [h.2]) hinv
      | some pathway =>
        simp only [] at h
        cases hps : lookupE st.pathways pathway.id with
        | error e => rw [hps] at h; simp at h
        | ok ps =>
          rw [hps] at h
          simp only [bind_ok_unit] at h
          by_cases hh : ps.hidden
          · rw [if_pos hh] at h
            simp only [pure_eq_ok, Except.ok.injEq, Prod.mk.injEq] at h
            exact heldInvariant_congr (by rw [h.2]) (by rw [h.2]) hinv
          · rw [if_neg hh] at h
            by_cases hlk : ps.locked
            · rw [if_pos hlk] at h
              simp only [pure_eq_ok, Except.ok.injEq, Prod.mk.injEq] at h
              exact heldInvariant_congr (by rw [h.2]) (by rw [h.2]) hinv
            · rw [if_neg hlk] at h
              cases hloc : lookupE
                  ({ st with player := { st.player with location_id := pathway.target } } :
                    GameState).locations pathway.target with
              | error e => rw [hloc] at h; simp at h
              | ok lv =>
                rw [hloc] at h
                simp only [bind_ok_unit] at h
                cases hd : describe_current_location meta locArt
                    { st with
                      player := { st.player with location_id := pathway.target }
                      locations := dmodify st.locations pathway.target
                        (fun l => { l with visited := true }) } with
                | error e => rw [hd] at h; simp at h
                | ok d =>
                  rw [hd] at h
                  simp only [bind_ok_unit, pure_eq_ok, Except.ok.injEq, Prod.mk.injEq] at h
                  exact heldInvariant_congr (by rw [← h.2]) (by rw [← h.2]) hinv

/-- C10 (implicit invariant): for every object id with an `ObjectState`
entry, `held_by_player` is true exactly when the id occurs in
`PlayerState.inventory`; the state produced by `build_initial_state`
satisfies this, and every successful `handle_command` call preserves it. -/
theorem c10_held_matches_inventory :
    (∀ game : GameMetadata, heldInvariant (build_initial_state game))
    ∧ ∀ meta locArt mapArt llm st raw resp st',
        handle_command meta locArt mapArt llm st raw = .ok (resp, st') →
        heldInvariant st → heldInvariant st' := by
  constructor
  · intro game oid ost h
    rw [build_objects_held_iff game oid ost h]
    rfl
  · intro meta locArt mapArt llm st raw resp st' h hinv
    unfold handle_command at h
    by_cases h0 : pyStrip raw = ""
    · rw [if_pos h0] at h
      cases hd : describe_current_location meta locArt st with
      | error e => rw [hd] at h; simp at h
      | ok d =>
        rw [hd] at h
        simp only [bind_ok_unit, pure_eq_ok, Except.ok.injEq, Prod.mk.injEq] at h
        exact heldInvariant_congr (by rw [← h.2]) (by rw [← h.2]) hinv
    · rw [if_neg h0] at h
      -- name the branch conditions and split on them in order
      by_cases c1 : pyLower (pyStrip raw) = "look" ∨ pyLower (pyStrip raw) = "look around"
          ∨ pyLower (pyStrip raw) = "l"
      · rw [if_pos c1] at h
        cases hd : describe_current_location meta locArt st with
        | error e => rw [hd] at h; simp at h
        | ok d =>
          rw [hd] at h
          simp only [bind_ok_unit, pure_eq_ok, Except.ok.injEq, Prod.mk.injEq] at h
          exact heldInvariant_congr (by rw [← h.2]) (by rw [← h.2]) hinv
      · rw [if_neg c1] at h
        by_cases c2 : pyLower (pyStrip raw) = "details" ∨ pyLower (pyStrip raw) = "examine location"
        · rw [if_pos c2] at h
          cases hd : describe_location_details meta st with
          | error e => rw [hd] at h; simp at h
          | ok d =>
            rw [hd] at h
            simp only [bind_ok_unit, pure_eq_ok, Except.ok.injEq, Prod.mk.injEq] at h
            exact heldInvariant_congr (by rw [← h.2]) (by rw [← h.2]) hinv
        · rw [if_neg c2] at h
          by_cases c3 : pyLower (pyStrip raw) = "inventory" ∨ pyLower (pyStrip raw) = "i"
          · rw [if_pos c3] at h
            simp only [pure_eq_ok, Except.ok.injEq, Prod.mk.injEq] at h
            exact heldInvariant_congr (by rw [← h.2]) (by rw [← h.2]) hinv
          · rw [if_neg c3] at h
            by_cases c4 : pyLower (pyStrip raw) = "help"
            · rw [if_pos c4] at h
              simp only [pure_eq_ok, Except.ok.injEq, Prod.mk.injEq] at h
              exact heldInvariant_congr (by rw [← h.2]) (by rw [← h.2]) hinv
            · rw [if_neg c4] at h
              by_cases c5 : pyLower (pyStrip raw) = "map" ∨ pyLower (pyStrip raw) = "view map"
                  ∨ pyLower (pyStrip raw) = "study map" ∨ pyLower (pyStrip raw) = "look at map"
              · rw [if_pos c5] at h
                cases hd : show_map meta mapArt st with
                | error e => rw [hd] at h; simp at h
                | ok d =>
                  rw [hd] at h
                  simp only [bind_ok_unit, pure_eq_ok, Except.ok.injEq, Prod.mk.injEq] at h
                  exact heldInvariant_congr (by rw [← h.2]) (by rw [← h.2]) hinv
              · rw [if_neg c5] at h
                by_cases c6 : pyStartsWith (pyLower (pyStrip raw)) "inspect " = true
                    ∨ pyStartsWith (pyLower (pyStrip raw)) "examine " = true
                · rw [if_pos c6] at h
                  cases hd : inspect_object meta st (extract_target (pyLower (pyStrip raw))) with
                  | error e => rw [hd] at h; simp at h
                  | ok d =>
                    rw [hd] at h
                    simp only [bind_ok_unit, pure_eq_ok, Except.ok.injEq, Prod.mk.injEq] at h
                    exact heldInvariant_congr (by rw [← h.2]) (by rw [← h.2]) hinv
                · rw [if_neg c6] at h
                  by_cases c7 : pyStartsWith (pyLower (pyStrip raw)) "take " = true
                      ∨ pyStartsWith (pyLower (pyStrip raw)) "pick up " = true
                  · rw [if_pos c7] at h
                    cases hd : take_object meta st (extract_target (pyLower (pyStrip raw))) with
                    | error e => rw [hd] at h; simp at h
                    | ok r =>
                      rw [hd] at h
                      simp only [bind_ok_unit, pure_eq_ok, Except.ok.injEq,
                        Prod.mk.injEq] at h
                      exact h.2 ▸ take_object_preserves meta st _ r.1 r.2 (by rw [hd]) hinv
                  · rw [if_neg c7] at h
                    by_cases c8 : pyStartsWith (pyLower (pyStrip raw)) "open " = true
                    · rw [if_pos c8] at h
                      cases hd : open_object meta st (extract_target (pyLower (pyStrip raw))) with
                      | error e => rw [hd] at h; simp at h
                      | ok r =>
                        rw [hd] at h
                        simp only [bind_ok_unit, pure_eq_ok, Except.ok.injEq,
                          Prod.mk.injEq] at h
                        exact h.2 ▸ open_object_preserves meta st _ r.1 r.2 (by rw [hd]) hinv
                    · rw [if_neg c8] at h
                      by_cases c9 : pyStartsWith (pyLower (pyStrip raw)) "talk " = true
                          ∨ pyStartsWith (pyLower (pyStrip raw)) "speak " = true
                      · rw [if_pos c9] at h
                        cases hd : talk_to_actor meta st (extract_target (pyLower (pyStrip raw))) with
                        | error e => rw [hd] at h; simp at h
                        | ok d =>
                          rw [hd] at h
                          simp only [bind_ok_unit, pure_eq_ok, Except.ok.injEq,
                            Prod.mk.injEq] at h
                          exact heldInvariant_congr (by rw [← h.2]) (by rw [← h.2]) hinv
                      · rw [if_neg c9] at h
                        by_cases c10 : pyStartsWith (pyLower (pyStrip raw)) "go " = true
                            ∨ pyStartsWith (pyLower (pyStrip raw)) "move " = true
                        · rw [if_pos c10] at h
                          by_cases c11 : extract_target (pyLower (pyStrip raw)) = some "map"
                          · rw [if_pos c11] at h
                            cases hd : show_map meta mapArt st with
                            | error e => rw [hd] at h; simp at h
                            | ok d =>
                              rw [hd] at h
                              simp only [bind_ok_unit, pure_eq_ok, Except.ok.injEq,
                                Prod.mk.injEq] at h
                              exact heldInvariant_congr (by rw [← h.2]) (by rw [← h.2]) hinv
                          · rw [if_neg c11] at h
                            cases hd : move_to_location meta locArt st
                                (extract_target (pyLower (pyStrip raw))) with
                            | error e => rw [hd] at h; simp at h
                            | ok r =>
                              rw [hd] at h
                              simp only [bind_ok_unit, pure_eq_ok, Except.ok.injEq,
                                Prod.mk.injEq] at h
                              exact h.2 ▸ move_to_location_preserves meta locArt st _ r.1 r.2
                                (by rw [hd]) hinv
                        · rw [if_neg c10] at h
                          cases hd : describe_location_details meta st with
                          | error e => rw [hd] at h; simp at h
                          | ok lore =>
                            rw [hd] at h
                            simp only [bind_ok_unit, pure_eq_ok, Except.ok.injEq,
                              Prod.mk.injEq] at h
                            exact heldInvariant_congr (by rw [← h.2]) (by rw [← h.2]) hinv

/-- The sample state after a successful `take sword` command, used by
witnesses. -/
def sampleStAfterTake : GameState :=
  match handle_command sampleMeta noArt none none sampleSt "take sword" with
  | .ok r => r.2
  | .error _ => sampleSt

/-- Witness for `c10_held_matches_inventory`: in the freshly built sample
state the held `coin` is in the inventory, and after `take sword` the
invariant instance for `sword` still holds. -/
theorem c10_held_matches_inventory_witness :
    (({ status := [], held_by_player := true } : ObjectState).held_by_player = true
      ↔ "coin" ∈ (build_initial_state sampleMeta).player.inventory)
    ∧ (({ status := [], held_by_player := true } : ObjectState).held_by_player = true
      ↔ "sword" ∈ sampleStAfterTake.player.inventory) :=
  ⟨c10_held_matches_inventory.1 sampleMeta "coin"
      { status := [], held_by_player := true } rfl,
   (c10_held_matches_inventory.2 sampleMeta noArt none none sampleSt "take sword"
      (CommandResponse.mk "You pick up the Sword." true) sampleStAfterTake rfl
      (heldInvariant_congr rfl rfl (c10_held_matches_inventory.1 sampleMeta)))
      "sword" { status := [], held_by_player := true } rfl⟩

/-! ## C1: movement gating -/

theorem visible_pathways_not_mem (st : GameState) (p : PathwayMetadata) (ps : PathwayState)
    (hps : dlookup st.pathways p.id = some ps) (hH : ps.hidden = true) :
    ∀ (l : List PathwayMetadata) (vis : List PathwayMetadata),
      visible_pathways st l = .ok vis → p ∉ vis := by
  intro l
  induction l with
  | nil =>
    intro vis h
    simp only [visible_pathways, Except.ok.injEq] at h
    rw [← h]
    simp
  | cons q rest ih =>
    intro vis h
    simp only [visible_pathways] at h
    cases hq : lookupE st.pathways q.id with
    | error e => rw [hq] at h; simp at h
    | ok qs =>
      rw [hq] at h
      simp only [bind_ok_unit] at h
      cases ht : visible_pathways st rest with
      | error e => rw [ht] at h; simp at h
      | ok tail =>
        rw [ht] at h
        simp only [bind_ok_unit, pure_eq_ok, Except.ok.injEq] at h
        subst h
        by_cases hqh : qs.hidden = true
        · rw [if_pos hqh]
          exact ih tail ht
        · rw [if_neg hqh]
          intro hmem
          rcases List.mem_cons.mp hmem with heq | hmem'
          · subst heq
            unfold lookupE at hq
            rw [hps] at hq
            simp only [Except.ok.injEq] at hq
            exact hqh (hq ▸ hH)
          · exact ih tail ht hmem'

/-- C1: when a movement command's target resolves to a pathway of the
current location, a hidden pathway yields the hidden message, a
non-hidden locked one the locked message, each leaving the state (hence
`PlayerState.location_id`) unchanged; a hidden pathway is excluded from
the visible-exits listing even though it resolved by name. -/
theorem c1_movement_gating (meta : GameMetadata) (locArt : LocationMetadata → Option String)
    (st : GameState) (target : String) (loc : LocationMetadata) (p : PathwayMetadata)
    (ps : PathwayState)
    (hloc : currentLocation meta st = .ok loc)
    (hmatch : matchPathways (pyLower target) loc.pathways = some p)
    (hps : dlookup st.pathways p.id = some ps) :
    (ps.hidden = true →
      move_to_location meta locArt st (some target)
        = .ok ("You do not know how to go that way.", st)
      ∧ ∀ vis, visible_pathways st loc.pathways = .ok vis → p ∉ vis)
    ∧ (ps.hidden = false → ps.locked = true →
      move_to_location meta locArt st (some target) = .ok ("That way is locked.", st)) := by
  have hpsE : lookupE st.pathways p.id = .ok ps := by
    unfold lookupE; rw [hps]
  have hm : match_pathway_in_scope meta st target = .ok (some p) := by
    unfold match_pathway_in_scope
    rw [hloc]
    simp only [bind_ok_unit, hmatch, pure_eq_ok]
  constructor
  · intro hH
    refine ⟨?_, fun vis hv => visible_pathways_not_mem st p ps hps hH loc.pathways vis hv⟩
    simp only [move_to_location, hm, bind_ok_unit, hpsE, hH, if_true, pure_eq_ok]
  · intro hH hL
    simp only [move_to_location, hm, bind_ok_unit, hpsE, hH, hL, if_true, pure_eq_ok,
      Bool.false_eq_true, if_false]

/-- Witness for `c1_movement_gating` in the sample world: the hidden
`secret` pathway and the locked `gate` pathway both refuse movement, and
`secret` is missing from the visible exits `[hatch, gate]`. -/
theorem c1_movement_gating_witness :
    (move_to_location sampleMeta noArt sampleSt (some "secret")
        = .ok ("You do not know how to go that way.", sampleSt)
      ∧ secretM ∉ [hatchM, gateM])
    ∧ move_to_location sampleMeta noArt sampleSt (some "gate")
        = .ok ("That way is locked.", sampleSt) := by
  have h1 := (c1_movement_gating sampleMeta noArt sampleSt "secret" deckM secretM
    { locked := false, hidden := true } rfl rfl rfl).1 rfl
  exact ⟨⟨h1.1, h1.2 [hatchM, gateM] rfl⟩,
    (c1_movement_gating sampleMeta noArt sampleSt "gate" deckM gateM
      { locked := true, hidden := false } rfl rfl rfl).2 rfl rfl⟩

/-! ## C3: taking an already-held object -/

/-- C3: when take's location-restricted resolution returns an object whose
state is already held, `take_object` answers with the already-have message
and returns the state unchanged — in particular `PlayerState.inventory`
and every `ObjectState` are untouched and no duplicate id is appended. -/
theorem c3_take_already_held (meta : GameMetadata) (st : GameState) (target : String)
    (obj : ObjectMetadata) (ost : ObjectState)
    (hmatch : match_object_in_scope meta st target false = .ok (some obj))
    (hos : dlookup st.objects obj.id = some ost)
    (hheld : ost.held_by_player = true) :
    take_object meta st (some target) = .ok ("You already have it.", st) := by
  have hosE : lookupE st.objects obj.id = .ok ost := by
    unfold lookupE; rw [hos]
  simp only [take_object, hmatch, bind_ok_unit, hosE, hheld, if_true, pure_eq_ok]

/-- Witness for `c3_take_already_held`: after `take sword` in the sample
world, a second `take sword` reports the object as already held and leaves
the state unchanged. -/
theorem c3_take_already_held_witness :
    take_object sampleMeta sampleStAfterTake (some "sword")
      = .ok ("You already have it.", sampleStAfterTake) :=
  c3_take_already_held sampleMeta sampleStAfterTake "sword" swordM
    { status := [], held_by_player := true } rfl rfl rfl

/-! ## C4: open followed by inspect -/

theorem dinsert_isEmpty {V : Type} (d : Dict V) (k : String) (v : V) :
    (dinsert d k v).isEmpty = false := by
  cases d with
  | nil => rfl
  | cons hd tl =>
    obtain ⟨k0, v0⟩ := hd
    by_cases h : k = k0 <;> simp [dinsert, h]

theorem joinSep_mem_decomp (sep : String) (l : List String) (a : String) (h : a ∈ l) :
    ∃ pre post, joinSep sep l = pre ++ a ++ post := by
  induction l with
  | nil => simp at h
  | cons x rest ih =>
    rcases List.mem_cons.mp h with heq | hmem
    · subst heq
      cases rest with
      | nil => exact ⟨"", "", by simp [joinSep]⟩
      | cons y ys =>
        exact ⟨"", sep ++ joinSep sep (y :: ys), by simp [joinSep, String.append_assoc]⟩
    · obtain ⟨pre, post, hp⟩ := ih hmem
      cases rest with
      | nil => simp at hmem
      | cons y ys =>
        refine ⟨x ++ sep ++ pre, post, ?_⟩
        show joinSep sep (x :: y :: ys) = _
        rw [show joinSep sep (x :: y :: ys) = x ++ sep ++ joinSep sep (y :: ys) from rfl, hp]
        simp [String.append_assoc]

theorem dlookup_statusmod (d : Dict ObjectState) (K : String)
    (g : ObjectState → Dict String) (oid : String) :
    (dlookup (dmodify d K (fun s => { s with status := g s })) oid).map
        ObjectState.held_by_player
      = (dlookup d oid).map ObjectState.held_by_player := by
  rw [dlookup_dmodify]
  by_cases h : oid = K
  · subst h
    cases h' : dlookup d oid <;> simp [h']
  · rw [if_neg h]

theorem heldFlag_eq_form (st : GameState) (oid : String) :
    heldFlag st oid =
      match (dlookup st.objects oid).map ObjectState.held_by_player with
      | some b => .ok b
      | none => .error () := by
  unfold heldFlag lookupE
  cases h : dlookup st.objects oid <;> simp [h]

/-- The engine state after `open` mutates one object's status in place:
only the `status` field of the entry at `K` changes. -/
def statusMod (st : GameState) (K : String) (g : ObjectState → Dict String) : GameState :=
  { st with objects := dmodify st.objects K (fun s => { s with status := g s }) }

theorem heldFlag_statusmod (st : GameState) (K : String)
    (g : ObjectState → Dict String) (oid : String) :
    heldFlag (statusMod st K g) oid = heldFlag st oid := by
  rw [heldFlag_eq_form, heldFlag_eq_form]
  have h : (dlookup (statusMod st K g).objects oid).map ObjectState.held_by_player
      = (dlookup st.objects oid).map ObjectState.held_by_player :=
    dlookup_statusmod st.objects K g oid
  rw [h]

theorem matchLocObjects_statusmod (st : GameState) (K : String)
    (g : ObjectState → Dict String) (tl : String) (l : List ObjectMetadata) :
    matchLocObjects (statusMod st K g) tl l = matchLocObjects st tl l := by
  induction l with
  | nil => rfl
  | cons obj rest ih =>
    simp only [matchLocObjects, heldFlag_statusmod, ih]

theorem match_object_statusmod (meta : GameMetadata) (st : GameState) (K : String)
    (g : ObjectState → Dict String) (target : String) (incl : Bool) :
    match_object_in_scope meta (statusMod st K g) target incl
      = match_object_in_scope meta st target incl := by
  unfold match_object_in_scope
  rw [show currentLocation meta (statusMod st K g) = currentLocation meta st from rfl]
  rw [show (statusMod st K g).player.inventory = st.player.inventory from rfl]
  simp only [matchLocObjects_statusmod]

/-- C4 (round trip): when inspect/open resolution finds an object whose
status does not map `open` to `true`, `open_object` sets
`status["open"]="true"` and reports success, and `inspect_object` on the
resulting state renders a status summary containing `open=true`. -/
theorem c4_open_then_inspect (meta : GameMetadata) (st : GameState) (target : String)
    (obj : ObjectMetadata) (ost : ObjectState)
    (hmatch : match_object_in_scope meta st target true = .ok (some obj))
    (hos : dlookup st.objects obj.id = some ost)
    (hopen : dlookup ost.status "open" ≠ some "true") :
    ∃ st', open_object meta st (some target)
        = .ok ("You open the " ++ obj.name ++ ".", st')
      ∧ ∃ pre post, inspect_object meta st' (some target)
        = .ok (pre ++ "open=true" ++ post) := by
  have hosE : lookupE st.objects obj.id = .ok ost := by
    unfold lookupE; rw [hos]
  have key : open_object meta st (some target)
      = .ok ("You open the " ++ obj.name ++ ".",
          statusMod st obj.id (fun s => dinsert s.status "open" "true")) := by
    simp only [open_object, hmatch, bind_ok_unit, hosE, if_neg hopen, pure_eq_ok, statusMod]
  refine ⟨_, key, ?_⟩
  have hm' : match_object_in_scope meta
        (statusMod st obj.id (fun s => dinsert s.status "open" "true")) target true
      = .ok (some obj) := by
    rw [match_object_statusmod]
    exact hmatch
  have hos' : dlookup
        (statusMod st obj.id (fun s => dinsert s.status "open" "true")).objects obj.id
      = some { ost with status := dinsert ost.status "open" "true" } := by
    rw [show (statusMod st obj.id (fun s => dinsert s.status "open" "true")).objects
        = dmodify st.objects obj.id (fun s => { s with status := dinsert s.status "open" "true" })
      from rfl]
    rw [dlookup_dmodify, if_pos rfl, hos]
    rfl
  have hmem2 : "open=true" ∈ (dinsert ost.status "open" "true").map
      (fun p => p.1 ++ "=" ++ p.2) := by
    have hmem := mem_dinsert_self ost.status "open" "true"
    have := List.mem_map_of_mem (fun p : String × String => p.1 ++ "=" ++ p.2) hmem
    simpa using this
  obtain ⟨pre, post, hjoin⟩ := joinSep_mem_decomp ", " _ _ hmem2
  simp only [inspect_object, hm', bind_ok_unit, hos', dinsert_isEmpty, Bool.false_eq_true,
    if_false, pure_eq_ok]
  refine ⟨(if obj.details = "" then obj.description
      else obj.description ++ "\n" ++ obj.details) ++ "\nCurrent state: " ++ pre,
    post ++ ".", ?_⟩
  rw [hjoin]
  simp [String.append_assoc]

theorem c4_open_then_inspect_witness :
    ∃ st', open_object sampleMeta sampleSt (some "chest")
        = .ok ("You open the " ++ chestM.name ++ ".", st')
      ∧ ∃ pre post, inspect_object sampleMeta st' (some "chest")
        = .ok (pre ++ "open=true" ++ post) :=
  c4_open_then_inspect sampleMeta sampleSt "chest" chestM
    { status := [("open", "false")], held_by_player := false } rfl rfl (by decide)

/-! ## C8: unmatched input and the narrative-fallback collaborator -/

/-- The disjunction of all verb checks of `handle_command`, in dispatch
order: an input line matches some verb prefix exactly when this holds of
its lowered, trimmed form. -/
def verbMatched (lowered : String) : Prop :=
  (lowered = "look" ∨ lowered = "look around" ∨ lowered = "l")
  ∨ (lowered = "details" ∨ lowered = "examine location")
  ∨ (lowered = "inventory" ∨ lowered = "i")
  ∨ lowered = "help"
  ∨ (lowered = "map" ∨ lowered = "view map" ∨ lowered = "study map"
      ∨ lowered = "look at map")
  ∨ (pyStartsWith lowered "inspect " = true ∨ pyStartsWith lowered "examine " = true)
  ∨ (pyStartsWith lowered "take " = true ∨ pyStartsWith lowered "pick up " = true)
  ∨ pyStartsWith lowered "open " = true
  ∨ (pyStartsWith lowered "talk " = true ∨ pyStartsWith lowered "speak " = true)
  ∨ (pyStartsWith lowered "go " = true ∨ pyStartsWith lowered "move " = true)

instance (s : String) : Decidable (verbMatched s) := by
  unfold verbMatched
  exact inferInstance

/-- C8: a nonempty input line matching no verb prefix is delegated to the
collaborator; on success its text is returned marked handled, while a
missing collaborator or any collaborator failure yields the canned
response built from the current location's details, marked unhandled — in
every case `handle_command` returns `.ok`, never an error. -/
theorem c8_unmatched_fallback (meta : GameMetadata)
    (locArt : LocationMetadata → Option String) (mapArt : Option String)
    (llm : Option LLMResult) (st : GameState) (raw : String) (lore : String)
    (hne : pyStrip raw ≠ "")
    (hnv : ¬ verbMatched (pyLower (pyStrip raw)))
    (hlore : describe_location_details meta st = .ok lore) :
    handle_command meta locArt mapArt llm st raw
      = .ok (CommandResponse.mk (llm_response llm lore).1 (llm_response llm lore).2, st)
    ∧ (∀ t, llm = some (.success t) → llm_response llm lore = (t, true))
    ∧ ((llm = none ∨ llm = some .failure) →
        llm_response llm lore
          = ("The narrative engine would answer via an AI, drawing only from known details. For now, consult the location notes:\n"
              ++ lore, false)) := by
  refine ⟨?_, ?_, ?_⟩
  · have h1 : ¬(pyLower (pyStrip raw) = "look" ∨ pyLower (pyStrip raw) = "look around"
        ∨ pyLower (pyStrip raw) = "l") := fun hc => hnv (Or.inl hc)
    have h2 : ¬(pyLower (pyStrip raw) = "details"
        ∨ pyLower (pyStrip raw) = "examine location") :=
      fun hc => hnv (Or.inr (Or.inl hc))
    have h3 : ¬(pyLower (pyStrip raw) = "inventory" ∨ pyLower (pyStrip raw) = "i") :=
      fun hc => hnv (Or.inr (Or.inr (Or.inl hc)))
    have h4 : ¬pyLower (pyStrip raw) = "help" :=
      fun hc => hnv (Or.inr (Or.inr (Or.inr (Or.inl hc))))
    have h5 : ¬(pyLower (pyStrip raw) = "map" ∨ pyLower (pyStrip raw) = "view map"
        ∨ pyLower (pyStrip raw) = "study map" ∨ pyLower (pyStrip raw) = "look at map") :=
      fun hc => hnv (Or.inr (Or.inr (Or.inr (Or.inr (Or.inl hc)))))
    have h6 : ¬(pyStartsWith (pyLower (pyStrip raw)) "inspect " = true
        ∨ pyStartsWith (pyLower (pyStrip raw)) "examine " = true) :=
      fun hc => hnv (Or.inr (Or.inr (Or.inr (Or.inr (Or.inr (Or.inl hc))))))
    have h7 : ¬(pyStartsWith (pyLower (pyStrip raw)) "take " = true
        ∨ pyStartsWith (pyLower (pyStrip raw)) "pick up " = true) :=
      fun hc => hnv (Or.inr (Or.inr (Or.inr (Or.inr (Or.inr (Or.inr (Or.inl hc)))))))
    have h8 : ¬pyStartsWith (pyLower (pyStrip raw)) "open " = true :=
      fun hc => hnv (Or.inr (Or.inr (Or.inr (Or.inr (Or.inr (Or.inr (Or.inr (Or.inl hc))))))))
    have h9 : ¬(pyStartsWith (pyLower (pyStrip raw)) "talk " = true
        ∨ pyStartsWith (pyLower (pyStrip raw)) "speak " = true) :=
      fun hc => hnv (Or.inr (Or.inr (Or.inr (Or.inr (Or.inr (Or.inr (Or.inr (Or.inr
        (Or.inl hc)))))))))
    have h10 : ¬(pyStartsWith (pyLower (pyStrip raw)) "go " = true
        ∨ pyStartsWith (pyLower (pyStrip raw)) "move " = true) :=
      fun hc => hnv (Or.inr (Or.inr (Or.inr (Or.inr (Or.inr (Or.inr (Or.inr (Or.inr
        (Or.inr hc)))))))))
    simp only [handle_command]
    rw [if_neg hne, if_neg h1, if_neg h2, if_neg h3, if_neg h4, if_neg h5, if_neg h6,
      if_neg h7, if_neg h8, if_neg h9, if_neg h10, hlore]
    simp only [bind_ok_unit, pure_eq_ok]
  · intro t h
    subst h
    rfl
  · rintro (h | h) <;> subst h <;> rfl

/-- Witness for `c8_unmatched_fallback`: the unmatched line `dance a jig`
returns collaborator text marked handled when the collaborator succeeds,
and the canned location-notes response marked unhandled when there is no
collaborator. -/
theorem c8_unmatched_fallback_witness :
    handle_command sampleMeta noArt none (some (.success "A strange wind answers."))
        sampleSt "dance a jig"
      = .ok (CommandResponse.mk "A strange wind answers." true, sampleSt)
    ∧ handle_command sampleMeta noArt none none sampleSt "dance a jig"
      = .ok (CommandResponse.mk
          ("The narrative engine would answer via an AI, drawing only from known details. For now, consult the location notes:\n"
            ++ "Salty planks.") false, sampleSt) := by
  have h1 := c8_unmatched_fallback sampleMeta noArt none
    (some (.success "A strange wind answers.")) sampleSt "dance a jig" "Salty planks."
    (by decide) (by decide) rfl
  have h2 := c8_unmatched_fallback sampleMeta noArt none none sampleSt "dance a jig"
    "Salty planks." (by decide) (by decide) rfl
  constructor
  · exact h1.1.trans (by rw [h1.2.1 "A strange wind answers." rfl])
  · exact h2.1.trans (by rw [h2.2.2 (Or.inl rfl)])

/-! ## Asset renderer (`engine.py` lines 405-502)

`fs` models the file system (file bytes by path, `none` = missing file,
whose read raises `OSError`); `inflate` models `zlib.decompress` (a zlib
error is a raised exception).  Resolving a relative path against the
working directory does not change which file is referenced, so `fs` is
keyed by the path label itself.  Python floats are modelled by exact
nonnegative rationals as numerator/denominator pairs of naturals: every
quantity in the rasterizer is nonnegative, and `int(x)` is the floor,
computed by natural division. -/

/-- A byte string (each entry < 256 for real file contents). -/
abbrev Bytes := List Nat

/-- `int.from_bytes(bs, "big")`. -/
def bytesToNatBE (bs : Bytes) : Nat := bs.foldl (fun acc b => acc * 256 + b) 0

/-- The 8-byte PNG signature. -/
def pngSignature : Bytes := [0x89, 0x50, 0x4E, 0x47, 0x0D, 0x0A, 0x1A, 0x0A]

/-- The ASCII bytes of `IHDR`. -/
def ihdrType : Bytes := [0x49, 0x48, 0x44, 0x52]

/-- The ASCII bytes of `IDAT`. -/
def idatType : Bytes := [0x49, 0x44, 0x41, 0x54]

/-- The ASCII bytes of `IEND`. -/
def iendType : Bytes := [0x49, 0x45, 0x4E, 0x44]

/-- Byte indexing `data[i]`: out of range raises `IndexError`. -/
def byteAt (bs : Bytes) (i : Nat) : Except Unit Nat :=
  match bs.get? i with
  | some b => .ok b
  | none => .error ()

/-- The chunk loop of `_decode_png_rgba`, fuel-indexed so that it reduces
structurally: every iteration consumes at least 12 bytes of `data`, so
with fuel `data.length + 1` the fuel can never run out before the data
does.  Accumulates the last declared `IHDR` dimensions and the
concatenated `IDAT` payload, skips unknown chunks by length, and stops at
`IEND` or the end of the data; an `IHDR` not declaring bit depth 8 and
color type 6 raises, as does an `IHDR` shorter than 10 bytes. -/
def walkChunks : Nat → Bytes → Option (Nat × Nat) → Bytes →
    Except Unit (Option (Nat × Nat) × Bytes)
  | 0, _, dims, idat => .ok (dims, idat)
  | _ + 1, [], dims, idat => .ok (dims, idat)
  | fuel + 1, b :: rest, dims, idat =>
    let data := b :: rest
    let length := bytesToNatBE (data.take 4)
    let ctype := (data.drop 4).take 4
    let cdata := (data.drop 8).take length
    if ctype = ihdrType then do
      let bit_depth ← byteAt cdata 8
      let color_type ← byteAt cdata 9
      if bit_depth ≠ 8 ∨ color_type ≠ 6 then .error ()
      else
        walkChunks fuel (data.drop (12 + length))
          (some (bytesToNatBE (cdata.take 4), bytesToNatBE ((cdata.drop 4).take 4))) idat
    else if ctype = idatType then
      walkChunks fuel (data.drop (12 + length)) dims (idat ++ cdata)
    else if ctype = iendType then .ok (dims, idat)
    else walkChunks fuel (data.drop (12 + length)) dims idat

/-- An RGBA pixel `(r, (g, (b, a)))`. -/
abbrev RGBA := Nat × Nat × Nat × Nat

/-- The `r, g, b, a = row_bytes[px:px+4]` unpacking loop over one
scanline: a trailing slice of fewer than 4 bytes raises `ValueError`. -/
def unpackRow : Bytes → Except Unit (List RGBA)
  | [] => .ok []
  | r :: g :: b :: a :: rest => do
    let tail ← unpackRow rest
    .ok ((r, g, b, a) :: tail)
  | _ => .error ()

/-- The scanline loop of `_decode_png_rgba`: reads one filter byte and
`stride` row bytes per scanline; a filter type other than 0 raises, and a
missing filter byte raises `IndexError`. -/
def unfilterRows (stride : Nat) : Nat → Bytes → Except Unit (List (List RGBA))
  | 0, _ => .ok []
  | _ + 1, [] => .error ()
  | n + 1, f :: rest =>
    if f ≠ 0 then .error ()
    else do
      let row ← unpackRow (rest.take stride)
      let rows ← unfilterRows stride n (rest.drop stride)
      .ok (row :: rows)

/-- `GameEngine._decode_png_rgba` on in-memory bytes. -/
def decode_png_rgba (inflate : Bytes → Except Unit Bytes) (data : Bytes) :
    Except Unit (Nat × Nat × List (List RGBA)) :=
  if pngSignature.isPrefixOf data then do
    let r ← walkChunks (data.length + 1) (data.drop 8) none []
    match r.1 with
    | none => .error ()
    | some wh => do
      let decompressed ← inflate r.2
      let pixels ← unfilterRows (wh.1 * 4) wh.2 decompressed
      .ok (wh.1, wh.2, pixels)
  else .error ()

/-- An exact nonnegative rational `num/den`. -/
abbrev Frac := Nat × Nat

/-- `int(q)` for a nonnegative rational: the floor. -/
def ffloor (q : Frac) : Nat := q.1 / q.2

/-- `n * q`. -/
def fscale (n : Nat) (q : Frac) : Frac := (n * q.1, q.2)

/-- `max(1.0, q)`. -/
def fmax1 (q : Frac) : Frac := if q.1 < q.2 then (1, 1) else q

/-- `n / q`. -/
def fdivBy (n : Nat) (q : Frac) : Frac := (n * q.2, q.1)

/-- The glyph ramp, sparsest to densest. -/
def ramp : String := " .:-=+*#%@"

/-- The inner (column) loop of `_png_to_ascii`: nearest-sample the row,
blank out low-alpha pixels, else quantize luminance
`0.2126 r + 0.7152 g + 0.0722 b` over 0-255 into the ramp;
`pixels[y][x]` or `ramp[idx]` out of range raises `IndexError`. -/
def renderCols (w : Nat) (stepX : Frac) (row : List RGBA) :
    List Nat → Except Unit (List Char)
  | [] => .ok []
  | c :: cs => do
    let x := min (w - 1) (ffloor (fscale c stepX))
    match row.get? x with
    | none => .error ()
    | some px => do
      let ch ←
        if px.2.2.2 < 40 then pure ' '
        else
          let lumNum := 2126 * px.1 + 7152 * px.2.1 + 722 * px.2.2.1
          match ramp.data.get? (ffloor (lumNum * 9, 10000 * 255)) with
          | some g => pure g
          | none => .error ()
      let rest ← renderCols w stepX row cs
      .ok (ch :: rest)

/-- The outer (row) loop of `_png_to_ascii`. -/
def renderRows (w h targetCols : Nat) (stepX stepY : Frac)
    (pixels : List (List RGBA)) : List Nat → Except Unit (List String)
  | [] => .ok []
  | ri :: rest => do
    let y := min (h - 1) (ffloor (fscale ri stepY))
    match pixels.get? y with
    | none => .error ()
    | some row => do
      let chars ← renderCols w stepX row (List.range targetCols)
      let tail ← renderRows w h targetCols stepX stepY pixels rest
      .ok (String.mk chars :: tail)

/-- The rasterization part of `GameEngine._png_to_ascii` on decoded
pixels. -/
def png_to_ascii_render (width height : Nat) (pixels : List (List RGBA)) :
    Except Unit String :=
  let target_cols := min 60 width
  if target_cols = 0 then .ok ""
  else
    let step_x : Frac := (width, target_cols)
    let step_y : Frac := fmax1 (width, target_cols * 2)
    let rows := min 40 (max 1 (ffloor (fdivBy height step_y)))
    do
      let lines ← renderRows width height target_cols step_x step_y pixels
        (List.range rows)
      .ok (joinSep "\n" lines)

/-- `GameEngine._png_to_ascii`: read the file, decode, rasterize. -/
def png_to_ascii (fs : String → Option Bytes) (inflate : Bytes → Except Unit Bytes)
    (path : String) : Except Unit String := do
  let data ← (match fs path with
    | some d => Except.ok d
    | none => Except.error ())
  let r ← decode_png_rgba inflate data
  png_to_ascii_render r.1 r.2.1 r.2.2

/-- Split a character list at a separator character (used to model
`pathlib` path components and the final `.`-split). -/
def splitChar (c : Char) : List Char → List (List Char)
  | [] => [[]]
  | x :: rest =>
    let r := splitChar c rest
    if x = c then [] :: r
    else
      match r with
      | [] => [[x]]
      | hpart :: t => (x :: hpart) :: t

/-- Index of the last `.` in a file name, if any (`str.rfind`). -/
def rfindDot : List Char → Option Nat
  | [] => none
  | c :: rest =>
    match rfindDot rest with
    | some i => some (i + 1)
    | none => if c = '.' then some 0 else none

/-- Python `Path.suffix`: the extension of the final path component (empty
when the final component has no interior dot). -/
def pathSuffix (label : String) : String :=
  let comps := splitChar '/' label.data
  let fname := comps.getLastD []
  match rfindDot fname with
  | some i => if 0 < i ∧ i < fname.length - 1 then ⟨fname.drop i⟩ else ""
  | none => ""

/-- Strict UTF-8 decoding of bytes into code points (RFC 3629: rejects
invalid start bytes, truncated sequences, overlongs, surrogates and
values above U+10FFFF), modelling Python `bytes.decode("utf-8")`. -/
def utf8Decode : Bytes → Option (List Char)
  | [] => some []
  | b :: rest =>
    if b < 0x80 then
      (utf8Decode rest).map (fun cs => Char.ofNat b :: cs)
    else if b < 0xC2 then none
    else if b < 0xE0 then
      match rest with
      | c1 :: rest2 =>
        if 0x80 ≤ c1 ∧ c1 < 0xC0 then
          (utf8Decode rest2).map
            (fun cs => Char.ofNat ((b - 0xC0) * 0x40 + (c1 - 0x80)) :: cs)
        else none
      | _ => none
    else if b < 0xF0 then
      match rest with
      | c1 :: c2 :: rest2 =>
        if (0x80 ≤ c1 ∧ c1 < 0xC0) ∧ (0x80 ≤ c2 ∧ c2 < 0xC0)
            ∧ (b ≠ 0xE0 ∨ 0xA0 ≤ c1) ∧ (b ≠ 0xED ∨ c1 < 0xA0) then
          (utf8Decode rest2).map
            (fun cs => Char.ofNat ((b - 0xE0) * 0x1000 + (c1 - 0x80) * 0x40
              + (c2 - 0x80)) :: cs)
        else none
      | _ => none
    else if b < 0xF5 then
      match rest with
      | c1 :: c2 :: c3 :: rest2 =>
        if (0x80 ≤ c1 ∧ c1 < 0xC0) ∧ (0x80 ≤ c2 ∧ c2 < 0xC0) ∧ (0x80 ≤ c3 ∧ c3 < 0xC0)
            ∧ (b ≠ 0xF0 ∨ 0x90 ≤ c1) ∧ (b ≠ 0xF4 ∨ c1 < 0x90) then
          (utf8Decode rest2).map
            (fun cs => Char.ofNat ((b - 0xF0) * 0x40000 + (c1 - 0x80) * 0x1000
              + (c2 - 0x80) * 0x40 + (c3 - 0x80)) :: cs)
        else none
      | _ => none
    else none

/-- Python `bytes.decode("utf-8")` as a `String`, `none` meaning a raised
`UnicodeDecodeError`. -/
def pyDecodeUtf8 (bs : Bytes) : Option String := (utf8Decode bs).map (fun cs => ⟨cs⟩)

/-- `GameEngine._render_image_asset`: memoized by stripped path label; the
`.png` branch recovers every decode or rasterization failure as a
placeholder; the text branch recovers only a missing file (`OSError`) —
a present file whose bytes fail UTF-8 decoding propagates the exception
(the Python code catches only `OSError` there). -/
def render_image_asset (fs : String → Option Bytes)
    (inflate : Bytes → Except Unit Bytes) (cache : Dict String)
    (path_label : String) : Except Unit (Option String × Dict String) :=
  let label := pyStrip path_label
  if label = "" then .ok (none, cache)
  else
    match dlookup cache label with
    | some cached => .ok (some cached, cache)
    | none =>
      if pyLower (pathSuffix label) = ".png" then
        let content :=
          match png_to_ascii fs inflate label with
          | .ok s => s
          | .error _ => "[unable to render image: " ++ label ++ "]"
        .ok (some content, dinsert cache label content)
      else
        match fs label with
        | none =>
          .ok (some ("[missing artwork: " ++ label ++ "]"),
            dinsert cache label ("[missing artwork: " ++ label ++ "]"))
        | some bytes =>
          match pyDecodeUtf8 bytes with
          | some text => .ok (some text, dinsert cache label text)
          | none => .error ()

/-! ## C5: decoder failure gates -/

/-- Observer on raw chunk data: the bit depth and color type declared by
the first header chunk the decoder's chunk walk reaches (same traversal
as `walkChunks`: skipping by length, stopping at `IEND`). -/
def ihdrScan : Nat → Bytes → Option (Nat × Nat)
  | 0, _ => none
  | _ + 1, [] => none
  | fuel + 1, b :: rest =>
    let data := b :: rest
    let length := bytesToNatBE (data.take 4)
    let ctype := (data.drop 4).take 4
    let cdata := (data.drop 8).take length
    if ctype = ihdrType then
      match cdata.get? 8, cdata.get? 9 with
      | some bd, some ct => some (bd, ct)
      | _, _ => none
    else if ctype = iendType then none
    else ihdrScan fuel (data.drop (12 + length))

theorem walkChunks_bad_ihdr (bd ct : Nat) (hbad : bd ≠ 8 ∨ ct ≠ 6) :
    ∀ (fuel : Nat) (data : Bytes) (dims : Option (Nat × Nat)) (idat : Bytes),
      ihdrScan fuel data = some (bd, ct) →
      walkChunks fuel data dims idat = .error () := by
  intro fuel
  induction fuel with
  | zero => intro data dims idat h; simp [ihdrScan] at h
  | succ n ih =>
    intro data dims idat h
    cases data with
    | nil => simp [ihdrScan] at h
    | cons b rest =>
      simp only [ihdrScan] at h
      simp only [walkChunks]
      by_cases hih : ((b :: rest).drop 4).take 4 = ihdrType
      · rw [if_pos hih] at h
        rw [if_pos hih]
        cases h8 : (((b :: rest).drop 8).take (bytesToNatBE ((b :: rest).take 4))).get? 8 with
        | none => rw [h8] at h; simp at h
        | some bd' =>
          cases h9 : (((b :: rest).drop 8).take (bytesToNatBE ((b :: rest).take 4))).get? 9 with
          | none => rw [h8, h9] at h; simp at h
          | some ct' =>
            rw [h8, h9] at h
            simp only [Option.some.injEq, Prod.mk.injEq] at h
            have hb8 : byteAt (((b :: rest).drop 8).take
                (bytesToNatBE ((b :: rest).take 4))) 8 = .ok bd' := by
              unfold byteAt; rw [h8]
            have hb9 : byteAt (((b :: rest).drop 8).take
                (bytesToNatBE ((b :: rest).take 4))) 9 = .ok ct' := by
              unfold byteAt; rw [h9]
            rw [hb8]
            simp only [bind_ok_unit]
            rw [hb9]
            simp only [bind_ok_unit]
            rw [if_pos (by rw [h.1, h.2]; exact hbad)]
      · rw [if_neg hih] at h ⊢
        by_cases hid : ((b :: rest).drop 4).take 4 = idatType
        · rw [if_pos hid]
          have hne : ((b :: rest).drop 4).take 4 ≠ iendType := by
            rw [hid]; decide
          rw [if_neg hne] at h
          exact ih _ _ _ h
        · rw [if_neg hid]
          by_cases hie : ((b :: rest).drop 4).take 4 = iendType
          · rw [if_pos hie] at h; simp at h
          · rw [if_neg hie] at h
            rw [if_neg hie]
            exact ih _ _ _ h

theorem unfilterRows_bad_filter (stride : Nat) :
    ∀ (i n : Nat) (bytes : Bytes) (f : Nat), i < n →
      bytes.get? (i * (stride + 1)) = some f → f ≠ 0 →
      unfilterRows stride n bytes = .error () := by
  intro i
  induction i with
  | zero =>
    intro n bytes f hin hget hf
    cases n with
    | zero => omega
    | succ n' =>
      cases bytes with
      | nil => simp at hget
      | cons b rest =>
        rw [Nat.zero_mul] at hget
        simp only [List.get?_cons_zero, Option.some.injEq] at hget
        unfold unfilterRows
        rw [if_pos (hget ▸ hf)]
  | succ i ih =>
    intro n bytes f hin hget hf
    cases n with
    | zero => omega
    | succ n' =>
      cases bytes with
      | nil => simp at hget
      | cons b rest =>
        unfold unfilterRows
        by_cases hb : b ≠ 0
        · rw [if_pos hb]
        · rw [if_neg hb]
          have hidx : (i + 1) * (stride + 1) = (stride + i * (stride + 1)) + 1 := by ring
          rw [hidx] at hget
          rw [List.get?_cons_succ] at hget
          have hget' : (rest.drop stride).get? (i * (stride + 1)) = some f := by
            rw [List.get?_drop]
            exact hget
          have hrec : unfilterRows stride n' (rest.drop stride) = .error () :=
            ih n' (rest.drop stride) f (by omega) hget' hf
          cases hrow : unpackRow (rest.take stride) with
          | error e => simp
          | ok row =>
            simp only [bind_ok_unit]
            rw [hrec]
            simp

/-- C5: a header chunk not declaring bit depth 8 with the
truecolor-with-alpha color mode makes decoding fail; a scanline whose
filter byte is nonzero makes the scanline stage fail; and on a `.png`
path every decode failure is recovered by the renderer as the bracketed
unable-to-render placeholder, returned normally rather than raised. -/
theorem c5_decoder_gates :
    (∀ (inflate : Bytes → Except Unit Bytes) (data : Bytes) (bd ct : Nat),
      ihdrScan (data.length + 1) (data.drop 8) = some (bd, ct) →
      bd ≠ 8 ∨ ct ≠ 6 →
      decode_png_rgba inflate data = .error ())
    ∧ (∀ (stride i n : Nat) (bytes : Bytes) (f : Nat),
        i < n → bytes.get? (i * (stride + 1)) = some f → f ≠ 0 →
        unfilterRows stride n bytes = .error ())
    ∧ (∀ (fs : String → Option Bytes) (inflate : Bytes → Except Unit Bytes)
        (cache : Dict String) (label : String),
        pyStrip label ≠ "" → dlookup cache (pyStrip label) = none →
        pyLower (pathSuffix (pyStrip label)) = ".png" →
        png_to_ascii fs inflate (pyStrip label) = .error () →
        render_image_asset fs inflate cache label
          = .ok (some ("[unable to render image: " ++ pyStrip label ++ "]"),
              dinsert cache (pyStrip label)
                ("[unable to render image: " ++ pyStrip label ++ "]"))) := by
  refine ⟨?_, fun stride i n bytes f => unfilterRows_bad_filter stride i n bytes f, ?_⟩
  · intro inflate data bd ct hscan hbad
    unfold decode_png_rgba
    by_cases hsig : pngSignature.isPrefixOf data
    · rw [if_pos hsig]
      rw [walkChunks_bad_ihdr bd ct hbad (data.length + 1) (data.drop 8) none [] hscan]
      simp
    · rw [if_neg hsig]
  · intro fs inflate cache label hne hc hsuf hfail
    simp only [render_image_asset]
    rw [if_neg hne, hc]
    simp only []
    rw [if_pos hsuf, hfail]

/-- A malformed image: correct signature, but the header declares color
type 2 (truecolor without alpha). -/
def badPng : Bytes :=
  pngSignature ++ [0, 0, 0, 13] ++ ihdrType
    ++ [0, 0, 0, 1, 0, 0, 0, 1, 8, 2, 0, 0, 0] ++ [0, 0, 0, 0]

/-- A trivial stand-in for `zlib.decompress` used by concrete witnesses. -/
def okInflate : Bytes → Except Unit Bytes :=
  fun _ => .ok [0, 0, 0, 0, 255, 255, 255, 255, 255, 0]

/-- A file system carrying only the malformed image. -/
def badPngFs : String → Option Bytes :=
  fun l => if l = "bad.png" then some badPng else none

/-- Witness for `c5_decoder_gates`: the color-type-2 image fails to
decode; a scanline with filter byte 1 fails; the renderer turns the
decode failure into the bracketed placeholder. -/
theorem c5_decoder_gates_witness :
    decode_png_rgba okInflate badPng = .error ()
    ∧ unfilterRows 4 1 [1] = .error ()
    ∧ render_image_asset badPngFs okInflate [] "bad.png"
        = .ok (some "[unable to render image: bad.png]",
            [("bad.png", "[unable to render image: bad.png]")]) := by
  refine ⟨c5_decoder_gates.1 okInflate badPng 8 2 rfl (by decide),
    c5_decoder_gates.2.1 4 0 1 [1] 1 (by decide) rfl (by decide), ?_⟩
  exact c5_decoder_gates.2.2 badPngFs okInflate [] "bad.png" (by decide) rfl rfl rfl

/-! ## C7: renderer error recovery -/

/-- A file system carrying one non-image file whose bytes are not valid
UTF-8 (`0xFF` is never a legal UTF-8 byte). -/
def badTxtFs : String → Option Bytes :=
  fun l => if l = "n.txt" then some [0xFF] else none

/-- C7 counterexample: rendering a present non-image asset whose bytes are
not decodable as text raises (`UnicodeDecodeError` — the text branch of
`_render_image_asset` catches only `OSError`), contradicting the claim
that render never raises out of the renderer. -/
theorem c7_counterexample :
    render_image_asset badTxtFs okInflate [] "n.txt" = .error () := rfl

/-- C7 (amended): the renderer never raises for image assets (the `.png`
branch always returns), a missing non-image file yields the bracketed
missing-artwork placeholder, any image decode or rasterization failure
yields the bracketed unable-to-render placeholder; but a present
non-image asset whose bytes fail text decoding propagates the exception
out of the renderer. -/
theorem c7_render_recovery :
    (∀ (fs : String → Option Bytes) (inflate : Bytes → Except Unit Bytes)
        (cache : Dict String) (label : String),
      pyLower (pathSuffix (pyStrip label)) = ".png" →
      ∃ r, render_image_asset fs inflate cache label = .ok r)
    ∧ (∀ (fs : String → Option Bytes) (inflate : Bytes → Except Unit Bytes)
        (cache : Dict String) (label : String),
        pyStrip label ≠ "" → dlookup cache (pyStrip label) = none →
        pyLower (pathSuffix (pyStrip label)) = ".png" →
        png_to_ascii fs inflate (pyStrip label) = .error () →
        render_image_asset fs inflate cache label
          = .ok (some ("[unable to render image: " ++ pyStrip label ++ "]"),
              dinsert cache (pyStrip label)
                ("[unable to render image: " ++ pyStrip label ++ "]")))
    ∧ (∀ (fs : String → Option Bytes) (inflate : Bytes → Except Unit Bytes)
        (cache : Dict String) (label : String),
        pyStrip label ≠ "" → dlookup cache (pyStrip label) = none →
        pyLower (pathSuffix (pyStrip label)) ≠ ".png" →
        fs (pyStrip label) = none →
        render_image_asset fs inflate cache label
          = .ok (some ("[missing artwork: " ++ pyStrip label ++ "]"),
              dinsert cache (pyStrip label)
                ("[missing artwork: " ++ pyStrip label ++ "]")))
    ∧ (∀ (fs : String → Option Bytes) (inflate : Bytes → Except Unit Bytes)
        (cache : Dict String) (label : String) (bytes : Bytes),
        pyStrip label ≠ "" → dlookup cache (pyStrip label) = none →
        pyLower (pathSuffix (pyStrip label)) ≠ ".png" →
        fs (pyStrip label) = some bytes → pyDecodeUtf8 bytes = none →
        render_image_asset fs inflate cache label = .error ()) := by
  refine ⟨?_, ?_, ?_, ?_⟩
  · intro fs inflate cache label hsuf
    simp only [render_image_asset]
    by_cases hne : pyStrip label = ""
    · rw [if_pos hne]; exact ⟨_, rfl⟩
    · rw [if_neg hne]
      cases hc : dlookup cache (pyStrip label) with
      | some cached => exact ⟨_, rfl⟩
      | none =>
        simp only []
        rw [if_pos hsuf]
        exact ⟨_, rfl⟩
  · intro fs inflate cache label hne hc hsuf hfail
    simp only [render_image_asset]
    rw [if_neg hne, hc]
    simp only []
    rw [if_pos hsuf, hfail]
  · intro fs inflate cache label hne hc hsuf hmiss
    simp only [render_image_asset]
    rw [if_neg hne, hc]
    simp only []
    rw [if_neg hsuf, hmiss]
  · intro fs inflate cache label bytes hne hc hsuf hbytes hdec
    simp only [render_image_asset]
    rw [if_neg hne, hc]
    simp only []
    rw [if_neg hsuf, hbytes]
    simp only []
    rw [hdec]

/-- Witness for `c7_render_recovery`: a missing `.png` still renders (as a
placeholder), the malformed image yields the unable-to-render
placeholder, a missing text asset yields the missing-artwork
placeholder, and the undecodable text asset raises. -/
theorem c7_render_recovery_witness :
    (∃ r, render_image_asset (fun _ => none) okInflate [] "gone.png" = .ok r)
    ∧ render_image_asset badPngFs okInflate [] "bad.png"
        = .ok (some "[unable to render image: bad.png]",
            [("bad.png", "[unable to render image: bad.png]")])
    ∧ render_image_asset (fun _ => none) okInflate [] "art/x.txt"
        = .ok (some "[missing artwork: art/x.txt]",
            [("art/x.txt", "[missing artwork: art/x.txt]")])
    ∧ render_image_asset badTxtFs okInflate [] "n.txt" = .error () := by
  refine ⟨c7_render_recovery.1 (fun _ => none) okInflate [] "gone.png" rfl, ?_, ?_, ?_⟩
  · exact c7_render_recovery.2.1 badPngFs okInflate [] "bad.png" (by decide) rfl rfl rfl
  · exact c7_render_recovery.2.2.1 (fun _ => none) okInflate [] "art/x.txt"
      (by decide) rfl (by decide) rfl
  · exact c7_render_recovery.2.2.2 badTxtFs okInflate [] "n.txt" [0xFF]
      (by decide) rfl (by decide) rfl rfl

/-! ## C6: rasterization formulas

The `spec_*` definitions below restate the spec's rasterization formulas
(target columns, sampling steps, row count, nearest sampling clamped to
bounds, the alpha threshold and the proportional luminance-to-ramp
quantization); `c6_rasterization` proves the code's rasterizer produces
exactly that grid. -/

/-- Spec: `target_columns = min(60, width)`. -/
def spec_target_columns (w : Nat) : Nat := min 60 w

/-- Spec: `step_x = width / target_columns`. -/
def spec_step_x (w : Nat) : Frac := (w, spec_target_columns w)

/-- Spec: `step_y = max(1.0, step_x * 0.5)`. -/
def spec_step_y (w : Nat) : Frac := fmax1 (w, spec_target_columns w * 2)

/-- Spec: `rows = min(40, max(1, height / step_y))`, floored. -/
def spec_rows (w h : Nat) : Nat := min 40 (max 1 (ffloor (fdivBy h (spec_step_y w))))

/-- Spec: sample column `floor(col * step_x)` clamped to the width. -/
def spec_sample_x (w ci : Nat) : Nat := min (w - 1) (ffloor (fscale ci (spec_step_x w)))

/-- Spec: sample row `floor(row * step_y)` clamped to the height. -/
def spec_sample_y (w h ri : Nat) : Nat := min (h - 1) (ffloor (fscale ri (spec_step_y w)))

/-- Spec: a blank glyph below the alpha threshold, else the ramp glyph at
`luminance / 255 * 9` with luminance `0.2126 R + 0.7152 G + 0.0722 B`. -/
def spec_glyph (px : RGBA) : Char :=
  if px.2.2.2 < 40 then ' '
  else (ramp.data.get? (ffloor ((2126 * px.1 + 7152 * px.2.1 + 722 * px.2.2.1) * 9,
    10000 * 255))).getD ' '

/-- Spec: the full output grid of glyphs. -/
def spec_grid (w h : Nat) (pixels : List (List RGBA)) : List (List Char) :=
  (List.range (spec_rows w h)).map (fun ri =>
    (List.range (spec_target_columns w)).map (fun ci =>
      spec_glyph ((((pixels.get? (spec_sample_y w h ri)).getD []).get?
        (spec_sample_x w ci)).getD (0, 0, 0, 0))))

theorem ramp_get_some (idx : Nat) (h : idx ≤ 9) :
    ramp.data.get? idx = some ((ramp.data.get? idx).getD ' ') := by
  interval_cases idx <;> rfl

theorem renderCols_eq_spec (w : Nat) (row : List RGBA)
    (hrw : row.length = w)
    (hb : ∀ px ∈ row, px.1 < 256 ∧ px.2.1 < 256 ∧ px.2.2.1 < 256)
    (hw : 0 < w) :
    ∀ cs : List Nat, renderCols w (spec_step_x w) row cs
      = .ok (cs.map (fun ci =>
          spec_glyph ((row.get? (spec_sample_x w ci)).getD (0, 0, 0, 0)))) := by
  intro cs
  induction cs with
  | nil => rfl
  | cons c cst ih =>
    simp only [renderCols]
    have hx : spec_sample_x w c < row.length := by
      rw [hrw]
      have hle : min (w - 1) (ffloor (fscale c (spec_step_x w))) ≤ w - 1 :=
        min_le_left _ _
      unfold spec_sample_x
      omega
    cases hpx : row.get? (spec_sample_x w c) with
    | none =>
      exfalso
      rw [List.get?_eq_none] at hpx
      omega
    | some px =>
      have hmem : px ∈ row := List.get?_mem hpx
      obtain ⟨hr, hg, hbb⟩ := hb px hmem
      rw [show min (w - 1) (ffloor (fscale c (spec_step_x w))) = spec_sample_x w c
        from rfl, hpx]
      simp only []
      rw [ih]
      simp only [bind_ok_unit]
      by_cases ha : px.2.2.2 < 40
      · rw [if_pos ha]
        simp only [bind_ok_unit, pure_eq_ok, List.map_cons]
        rw [show ((row.get? (spec_sample_x w c)).getD (0, 0, 0, 0)) = px by rw [hpx]; rfl]
        rw [show spec_glyph px = ' ' by unfold spec_glyph; rw [if_pos ha]]
      · rw [if_neg ha]
        have hidx : ffloor ((2126 * px.1 + 7152 * px.2.1 + 722 * px.2.2.1) * 9,
            10000 * 255) ≤ 9 := by
          unfold ffloor
          have hlum : (2126 * px.1 + 7152 * px.2.1 + 722 * px.2.2.1) * 9
              ≤ 2550000 * 9 := by omega
          calc (2126 * px.1 + 7152 * px.2.1 + 722 * px.2.2.1) * 9 / (10000 * 255)
              ≤ 2550000 * 9 / (10000 * 255) := Nat.div_le_div_right hlum
            _ = 9 := by norm_num
        rw [ramp_get_some _ hidx]
        simp only [bind_ok_unit, pure_eq_ok, List.map_cons]
        rw [show ((row.get? (spec_sample_x w c)).getD (0, 0, 0, 0)) = px by rw [hpx]; rfl]
        rw [show spec_glyph px
            = (ramp.data.get? (ffloor ((2126 * px.1 + 7152 * px.2.1 + 722 * px.2.2.1) * 9,
                10000 * 255))).getD ' '
          by unfold spec_glyph; rw [if_neg ha]]

theorem renderRows_eq_spec (w h : Nat) (pixels : List (List RGBA))
    (hw : 0 < w) (hh : 0 < h) (hlen : pixels.length = h)
    (hrow : ∀ row ∈ pixels, row.length = w)
    (hb : ∀ row ∈ pixels, ∀ px ∈ row, px.1 < 256 ∧ px.2.1 < 256 ∧ px.2.2.1 < 256) :
    ∀ rs : List Nat,
      renderRows w h (spec_target_columns w) (spec_step_x w) (spec_step_y w) pixels rs
        = .ok (rs.map (fun ri => String.mk ((List.range (spec_target_columns w)).map
            (fun ci => spec_glyph ((((pixels.get? (spec_sample_y w h ri)).getD []).get?
              (spec_sample_x w ci)).getD (0, 0, 0, 0)))))) := by
  intro rs
  induction rs with
  | nil => rfl
  | cons ri rest ih =>
    simp only [renderRows]
    have hy : spec_sample_y w h ri < pixels.length := by
      rw [hlen]
      have hle : min (h - 1) (ffloor (fscale ri (spec_step_y w))) ≤ h - 1 :=
        min_le_left _ _
      unfold spec_sample_y
      omega
    cases hpy : pixels.get? (spec_sample_y w h ri) with
    | none =>
      exfalso
      rw [List.get?_eq_none] at hpy
      omega
    | some row =>
      have hmem : row ∈ pixels := List.get?_mem hpy
      rw [show min (h - 1) (ffloor (fscale ri (spec_step_y w))) = spec_sample_y w h ri
        from rfl, hpy]
      simp only []
      rw [renderCols_eq_spec w row (hrow row hmem) (hb row hmem) hw
        (List.range (spec_target_columns w))]
      simp only [bind_ok_unit]
      rw [ih]
      simp only [bind_ok_unit, pure_eq_ok, List.map_cons]
      rw [show ((pixels.get? (spec_sample_y w h ri)).getD []) = row by rw [hpy]; rfl]

/-- C6: for a successfully decoded byte-valued image of positive width and
height, the rasterizer computes exactly the spec's grid: `min(60,w)`
columns, `step_x = w/cols`, `step_y = max(1, step_x/2)`,
`min(40, max(1, floor(h/step_y)))` rows, nearest sampling at
`(floor(col*step_x), floor(row*step_y))` clamped to bounds, the blank
glyph below the alpha threshold 40, and proportional luminance
quantization into the ten-glyph ramp. -/
theorem c6_rasterization (w h : Nat) (pixels : List (List RGBA))
    (hw : 0 < w) (hh : 0 < h) (hlen : pixels.length = h)
    (hrow : ∀ row ∈ pixels, row.length = w)
    (hb : ∀ row ∈ pixels, ∀ px ∈ row, px.1 < 256 ∧ px.2.1 < 256 ∧ px.2.2.1 < 256) :
    png_to_ascii_render w h pixels
      = .ok (joinSep "\n" ((spec_grid w h pixels).map (fun cs => String.mk cs))) := by
  have hcols : ¬ min 60 w = 0 := by omega
  simp only [png_to_ascii_render]
  rw [if_neg hcols]
  rw [show fmax1 (w, min 60 w * 2) = spec_step_y w from rfl]
  rw [show ((w, min 60 w) : Frac) = spec_step_x w from rfl]
  rw [show min 40 (max 1 (ffloor (fdivBy h (spec_step_y w)))) = spec_rows w h from rfl]
  rw [show min 60 w = spec_target_columns w from rfl]
  rw [renderRows_eq_spec w h pixels hw hh hlen hrow hb (List.range (spec_rows w h))]
  simp only [bind_ok_unit, pure_eq_ok, spec_grid, List.map_map]
  rfl

theorem unfilterRows_length (stride : Nat) :
    ∀ (n : Nat) (bytes : Bytes) (rows : List (List RGBA)),
      unfilterRows stride n bytes = .ok rows → rows.length = n := by
  intro n
  induction n with
  | zero =>
    intro bytes rows h
    simp only [unfilterRows, Except.ok.injEq] at h
    rw [← h]
    rfl
  | succ n' ih =>
    intro bytes rows h
    cases bytes with
    | nil => simp [unfilterRows] at h
    | cons f rest =>
      unfold unfilterRows at h
      by_cases hf : f ≠ 0
      · rw [if_pos hf] at h; simp at h
      · rw [if_neg hf] at h
        cases hrow : unpackRow (rest.take stride) with
        | error e => rw [hrow] at h; simp at h
        | ok row =>
          rw [hrow] at h
          simp only [bind_ok_unit] at h
          cases hrec : unfilterRows stride n' (rest.drop stride) with
          | error e => rw [hrec] at h; simp at h
          | ok rows' =>
            rw [hrec] at h
            simp only [bind_ok_unit, pure_eq_ok, Except.ok.injEq] at h
            rw [← h]
            simp [ih (rest.drop stride) rows' hrec]

/-- A successful decode yields exactly the declared number of scanlines
(so `c6_rasterization`'s `pixels.length = h` hypothesis holds of every
successfully decoded image). -/
theorem decode_png_rgba_height (inflate : Bytes → Except Unit Bytes) (data : Bytes)
    (w h : Nat) (pixels : List (List RGBA))
    (hdec : decode_png_rgba inflate data = .ok (w, h, pixels)) :
    pixels.length = h := by
  unfold decode_png_rgba at hdec
  by_cases hsig : pngSignature.isPrefixOf data
  · rw [if_pos hsig] at hdec
    cases hw : walkChunks (data.length + 1) (data.drop 8) none [] with
    | error e => rw [hw] at hdec; simp at hdec
    | ok r =>
      rw [hw] at hdec
      simp only [bind_ok_unit] at hdec
      cases hd : r.1 with
      | none => rw [hd] at hdec; simp at hdec
      | some wh =>
        rw [hd] at hdec
        simp only [] at hdec
        cases hi : inflate r.2 with
        | error e => rw [hi] at hdec; simp at hdec
        | ok decompressed =>
          rw [hi] at hdec
          simp only [bind_ok_unit] at hdec
          cases hu : unfilterRows (wh.1 * 4) wh.2 decompressed with
          | error e => rw [hu] at hdec; simp at hdec
          | ok rows =>
            rw [hu] at hdec
            simp only [bind_ok_unit, pure_eq_ok, Except.ok.injEq, Prod.mk.injEq] at hdec
            obtain ⟨hw1, hh1, hp1⟩ := hdec
            rw [← hp1, ← hh1]
            exact unfilterRows_length (wh.1 * 4) wh.2 decompressed rows hu
  · rw [if_neg hsig] at hdec
    simp at hdec

/-- The 2-by-2 image used by the C6 witness. -/
def samplePixels : List (List RGBA) :=
  [[(0, 0, 0, 255), (255, 255, 255, 255)], [(10, 20, 30, 5), (100, 100, 100, 255)]]

/-- Witness for `c6_rasterization` at a concrete 2-by-2 image. -/
theorem c6_rasterization_witness :
    png_to_ascii_render 2 2 samplePixels
      = .ok (joinSep "\n" ((spec_grid 2 2 samplePixels).map (fun cs => String.mk cs))) :=
  c6_rasterization 2 2 samplePixels (by decide) (by decide) (by decide) (by decide)
    (by decide)

end TAdv
